import Mathlib

/-!
# Verification of the uniswap_math_py AMM math engine

This file embeds the Python sources (`uniswap_math.py`, with `main.py` and
`script.py` as near-identical duplicates) and settles the frozen claims about
them.

Modelling conventions:

* Python integers are `ℤ`; Python integer floor division `//` is `Int.fdiv`
  guarded by an explicit `ZeroDivisionError`.
* Python floats are modelled as rational numbers carrying IEEE binary64
  rounding: every float-producing operation (true division `/`, int-to-float
  conversion) rounds its exact rational value to the nearest representable
  binary64 value (53-bit significand, ties to even, subnormal granularity
  `2^(-1074)`).  The exponent range is unbounded above: the model is faithful
  to CPython for every value of magnitude below `2^1024` and does not model
  the `OverflowError` that CPython raises beyond that astronomical range.
* The transcendental libm routines (`math.log`, `math.pow`, `**`), whose
  rounding CPython leaves to the platform, are idealised as exact real-number
  operations; their exactly-specified failure behaviour (`ValueError` on a
  non-positive argument to `math.log`, on a negative argument to `math.sqrt`)
  is modelled precisely.
* `quote_exact_input` / `quote_exact_output` return the pair
  `(new_sqrtP, amount)` of their exactly-determined components; the remaining
  `new_price`/`new_tick` entries of the source's result tuple are
  display-oriented libm values, but the error that `price_to_tick` raises
  inside the quoters when `new_price` is zero (that is, when `new_sqrtP = 0`)
  is part of the model.
-/

/-! ## Binary64 rounding infrastructure -/

/-- Powers of two with integer exponent, as rationals. -/
def qpow2 (u : ℤ) : ℚ :=
  if 0 ≤ u then ((2 ^ u.toNat : ℕ) : ℚ) else 1 / ((2 ^ (-u).toNat : ℕ) : ℚ)

/-- Binary exponent of a positive rational: the unique `e` with
`2^e ≤ q < 2^(e+1)` (junk value for `q ≤ 0`). -/
def qexp (q : ℚ) : ℤ := Int.log 2 q

/-- Round a rational to the nearest integer, ties to even. -/
def rhe (x : ℚ) : ℤ :=
  if 2 * x < 2 * (⌊x⌋ : ℚ) + 1 then ⌊x⌋
  else if 2 * (⌊x⌋ : ℚ) + 1 < 2 * x then ⌊x⌋ + 1
  else if ⌊x⌋ % 2 = 0 then ⌊x⌋ else ⌊x⌋ + 1

/-- The exponent of the least significant bit of the binary64 format at
magnitude `q`: `qexp q - 52` in the normal range, `-1074` for subnormals. -/
def ulpExp (q : ℚ) : ℤ := max (qexp q - 52) (-1074)

/-- Round a positive rational to the nearest IEEE binary64 value (ties to
even; subnormal granularity `2^(-1074)`; exponent unbounded above). -/
def rndPos (q : ℚ) : ℚ :=
  (rhe (q / qpow2 (ulpExp q)) : ℚ) * qpow2 (ulpExp q)

/-- Round a rational to the nearest IEEE binary64 value (sign-symmetric). -/
def rnd (q : ℚ) : ℚ :=
  if q = 0 then 0 else if q < 0 then -rndPos (-q) else rndPos q

/-- Python `int()` applied to a float value: truncation toward zero. -/
def pyInt (x : ℚ) : ℤ := if x < 0 then -⌊-x⌋ else ⌊x⌋

lemma qpow2_eq_zpow (u : ℤ) : qpow2 u = (2 : ℚ) ^ u := by
  unfold qpow2
  by_cases h : 0 ≤ u
  · rw [if_pos h]
    push_cast
    rw [← zpow_natCast (2 : ℚ) u.toNat, Int.toNat_of_nonneg h]
  · rw [if_neg h]
    push_cast
    rw [← zpow_natCast (2 : ℚ) (-u).toNat, Int.toNat_of_nonneg (by omega), zpow_neg, one_div,
      inv_inv]

lemma qpow2_pos (u : ℤ) : 0 < qpow2 u := by
  rw [qpow2_eq_zpow] ; positivity

lemma qpow2_zero : qpow2 0 = 1 := by
  rw [qpow2_eq_zpow] ; norm_num

lemma qpow2_add (u v : ℤ) : qpow2 (u + v) = qpow2 u * qpow2 v := by
  simp [qpow2_eq_zpow, zpow_add₀ (two_ne_zero' ℚ)]

lemma two_le_qpow2 {w : ℤ} (h : 1 ≤ w) : 2 ≤ qpow2 w := by
  unfold qpow2
  rw [if_pos (by omega : (0 : ℤ) ≤ w)]
  have h2 : 2 ^ 1 ≤ 2 ^ w.toNat := Nat.pow_le_pow_right (by norm_num) (by omega)
  exact_mod_cast le_trans (by norm_num) h2

lemma qpow2_lt_qpow2 {u v : ℤ} (h : u < v) : qpow2 u < qpow2 v := by
  have h2 := two_le_qpow2 (show (1 : ℤ) ≤ v - u by omega)
  have hp := qpow2_pos u
  calc qpow2 u < qpow2 u * 2 := by nlinarith
    _ ≤ qpow2 u * qpow2 (v - u) := by nlinarith [qpow2_pos (v - u)]
    _ = qpow2 v := by rw [← qpow2_add] ; ring_nf

lemma qpow2_le_qpow2 {u v : ℤ} (h : u ≤ v) : qpow2 u ≤ qpow2 v := by
  rcases eq_or_lt_of_le h with rfl | h
  · exact le_refl _
  · exact le_of_lt (qpow2_lt_qpow2 h)

lemma qexp_spec (q : ℚ) (h : 0 < q) : qpow2 (qexp q) ≤ q ∧ q < qpow2 (qexp q + 1) := by
  constructor
  · have h1 := Int.zpow_log_le_self (show 1 < 2 by norm_num) h
    rw [qpow2_eq_zpow]
    exact_mod_cast h1
  · have h2 := Int.lt_zpow_succ_log_self (show 1 < 2 by norm_num) q
    rw [qpow2_eq_zpow]
    exact_mod_cast h2

lemma qexp_eq {q : ℚ} {e : ℤ} (h : 0 < q) (h1 : qpow2 e ≤ q) (h2 : q < qpow2 (e + 1)) :
    qexp q = e := by
  obtain ⟨hsl, hsr⟩ := qexp_spec q h
  by_contra hne
  rcases lt_or_gt_of_ne hne with hlt | hgt
  · have : qpow2 (qexp q + 1) ≤ qpow2 e := qpow2_le_qpow2 (by omega)
    linarith
  · have : qpow2 (e + 1) ≤ qpow2 (qexp q) := qpow2_le_qpow2 (by omega)
    linarith

lemma rhe_bounds (x : ℚ) : x - 1 / 2 ≤ (rhe x : ℚ) ∧ (rhe x : ℚ) ≤ x + 1 / 2 := by
  unfold rhe
  have h1 : ((⌊x⌋ : ℚ)) ≤ x := Int.floor_le x
  have h2 : x < ((⌊x⌋ : ℚ)) + 1 := Int.lt_floor_add_one x
  split_ifs with ha hb hc
  · constructor <;> push_cast <;> linarith
  · constructor <;> push_cast <;> linarith
  · constructor <;> push_cast <;> linarith
  · constructor <;> push_cast <;> linarith

lemma rhe_floor_le (x : ℚ) : ⌊x⌋ ≤ rhe x := by
  unfold rhe
  split_ifs <;> omega

lemma rhe_intCast (n : ℤ) : rhe (n : ℚ) = n := by
  unfold rhe
  rw [Int.floor_intCast]
  rw [if_pos (by linarith)]

lemma rndPos_nonneg {q : ℚ} (h : 0 < q) : 0 ≤ rndPos q := by
  unfold rndPos
  have hp := qpow2_pos (ulpExp q)
  have hx : (0 : ℚ) ≤ q / qpow2 (ulpExp q) := le_of_lt (div_pos h hp)
  have := rhe_floor_le (q / qpow2 (ulpExp q))
  have hf : (0 : ℤ) ≤ ⌊q / qpow2 (ulpExp q)⌋ := Int.floor_nonneg.mpr hx
  have : (0 : ℚ) ≤ (rhe (q / qpow2 (ulpExp q)) : ℚ) := by exact_mod_cast le_trans hf this
  positivity

lemma rndPos_err {q : ℚ} (h : 0 < q) : |rndPos q - q| ≤ qpow2 (ulpExp q - 1) := by
  unfold rndPos
  have hp := qpow2_pos (ulpExp q)
  obtain ⟨hl, hr⟩ := rhe_bounds (q / qpow2 (ulpExp q))
  rw [abs_le]
  have hq : (rhe (q / qpow2 (ulpExp q)) : ℚ) * qpow2 (ulpExp q) - q
      = ((rhe (q / qpow2 (ulpExp q)) : ℚ) - q / qpow2 (ulpExp q)) * qpow2 (ulpExp q) := by
    field_simp
  rw [hq]
  have hhalf : qpow2 (ulpExp q - 1) = 1 / 2 * qpow2 (ulpExp q) := by
    rw [show ulpExp q - 1 = -1 + ulpExp q by ring, qpow2_add]
    rw [show qpow2 (-1) = 1 / 2 by rw [qpow2_eq_zpow] ; norm_num]
  constructor <;> rw [hhalf] <;> nlinarith

lemma ulpExp_le {q : ℚ} (h : 0 < q) :
    qpow2 (ulpExp q - 1) ≤ q * qpow2 (-53) + qpow2 (-1075) := by
  unfold ulpExp
  have hs := (qexp_spec q h).1
  rcases le_or_lt (-1074) (qexp q - 52) with hm | hm
  · rw [max_eq_left hm]
    have : qpow2 (qexp q - 52 - 1) = qpow2 (qexp q) * qpow2 (-53) := by
      rw [← qpow2_add] ; ring_nf
    rw [this]
    have h53 := qpow2_pos (-53)
    have h75 := qpow2_pos (-1075)
    nlinarith
  · rw [max_eq_right (le_of_lt hm)]
    have : qpow2 (-1074 - 1) = qpow2 (-1075) := by norm_num
    rw [this]
    have h53 := qpow2_pos (-53)
    nlinarith

lemma rnd_zero : rnd 0 = 0 := by simp [rnd]

lemma rnd_neg (q : ℚ) : rnd (-q) = -rnd q := by
  unfold rnd
  rcases lt_trichotomy q 0 with h | h | h
  · rw [if_neg (show ¬(-q = 0) by intro hc ; rw [neg_eq_zero] at hc ; exact ne_of_lt h hc),
      if_neg (show ¬(-q < 0) by linarith),
      if_neg (ne_of_lt h), if_pos h]
    ring
  · subst h ; norm_num
  · rw [if_neg (show ¬(-q = 0) by intro hc ; rw [neg_eq_zero] at hc ; exact ne_of_gt h hc),
      if_pos (show -q < 0 by linarith), neg_neg,
      if_neg (ne_of_gt h), if_neg (not_lt.mpr (le_of_lt h))]

lemma rnd_err (q : ℚ) : |rnd q - q| ≤ |q| * qpow2 (-53) + qpow2 (-1075) := by
  rcases lt_trichotomy q 0 with h | h | h
  · have hpos : 0 < -q := by linarith
    have h1 := rndPos_err hpos
    have h2 := ulpExp_le hpos
    unfold rnd
    rw [if_neg (ne_of_lt h), if_pos h]
    rw [show -rndPos (-q) - q = -(rndPos (-q) - -q) by ring, abs_neg, abs_of_neg h]
    calc |rndPos (-q) - -q| ≤ qpow2 (ulpExp (-q) - 1) := h1
      _ ≤ -q * qpow2 (-53) + qpow2 (-1075) := h2
  · subst h ; rw [rnd_zero]
    simp [le_of_lt (qpow2_pos (-1075))]
  · have h1 := rndPos_err h
    have h2 := ulpExp_le h
    unfold rnd
    rw [if_neg (ne_of_gt h), if_neg (not_lt.mpr (le_of_lt h)), abs_of_pos h]
    linarith

lemma rnd_nonneg {q : ℚ} (h : 0 ≤ q) : 0 ≤ rnd q := by
  rcases eq_or_lt_of_le h with rfl | h
  · rw [rnd_zero]
  · unfold rnd
    rw [if_neg (ne_of_gt h), if_neg (not_lt.mpr (le_of_lt h))]
    exact rndPos_nonneg h

lemma rnd_nonpos {q : ℚ} (h : q ≤ 0) : rnd q ≤ 0 := by
  have := rnd_nonneg (show (0 : ℚ) ≤ -q by linarith)
  rw [rnd_neg] at this
  linarith

lemma qpow2_neg53_small : qpow2 (-53) ≤ 1 / 4 ∧ qpow2 (-1075) ≤ 1 / 4 := by
  have h1 : qpow2 (-53) ≤ qpow2 (-2) := qpow2_le_qpow2 (by norm_num)
  have h2 : qpow2 (-1075) ≤ qpow2 (-2) := qpow2_le_qpow2 (by norm_num)
  have : qpow2 (-2) = 1 / 4 := by rw [qpow2_eq_zpow] ; norm_num
  constructor <;> linarith

lemma rnd_pos_of_one_le {q : ℚ} (h : 1 ≤ q) : 0 < rnd q := by
  have herr := rnd_err q
  rw [abs_of_pos (show (0 : ℚ) < q by linarith), abs_le] at herr
  obtain ⟨h53, h75⟩ := qpow2_neg53_small
  have hp := qpow2_pos (-53)
  have hlo := herr.1
  nlinarith [hlo, h, h53, h75, hp]

lemma rnd_ne_zero_of_int {c : ℤ} (h : c ≠ 0) : rnd (c : ℚ) ≠ 0 := by
  rcases lt_or_gt_of_ne h with hneg | hpos
  · have h1 : (1 : ℚ) ≤ ((-c : ℤ) : ℚ) := by exact_mod_cast (show (1 : ℤ) ≤ -c by omega)
    have hp : 0 < rnd ((-c : ℤ) : ℚ) := rnd_pos_of_one_le h1
    rw [show ((c : ℚ)) = -(((-c : ℤ) : ℚ)) by push_cast ; ring, rnd_neg]
    intro hc
    rw [neg_eq_zero] at hc
    rw [hc] at hp
    exact lt_irrefl 0 hp
  · have h1 : (1 : ℚ) ≤ (c : ℚ) := by exact_mod_cast (show (1 : ℤ) ≤ c by omega)
    exact ne_of_gt (rnd_pos_of_one_le h1)

lemma pyInt_eq_floor {x : ℚ} (h : 0 ≤ x) : pyInt x = ⌊x⌋ :=
  if_neg (not_lt.mpr h)

lemma pyInt_zero : pyInt 0 = 0 := by
  rw [pyInt_eq_floor (le_refl 0)] ; norm_num

lemma pyInt_intCast (n : ℤ) : pyInt (n : ℚ) = n := by
  unfold pyInt
  split_ifs
  · rw [show (-(n : ℚ)) = ((-n : ℤ) : ℚ) by push_cast ; ring, Int.floor_intCast] ; ring
  · rw [Int.floor_intCast]

lemma pyInt_le {x : ℚ} (h : 0 ≤ x) : (pyInt x : ℚ) ≤ x := by
  rw [pyInt_eq_floor h] ; exact Int.floor_le x

lemma pyInt_gt {x : ℚ} (h : 0 ≤ x) : x - 1 < (pyInt x : ℚ) := by
  rw [pyInt_eq_floor h]
  have := Int.lt_floor_add_one x
  linarith

lemma pyInt_nonpos {x : ℚ} (h : x ≤ 0) : pyInt x ≤ 0 ∧ x ≤ (pyInt x : ℚ) := by
  rcases eq_or_lt_of_le h with rfl | hlt
  · rw [pyInt_zero] ; norm_num
  · unfold pyInt
    rw [if_pos hlt]
    have h1 : (0 : ℚ) ≤ -x := by linarith
    have h2 : (0 : ℤ) ≤ ⌊-x⌋ := Int.floor_nonneg.mpr h1
    constructor
    · omega
    · have := Int.floor_le (-x)
      push_cast
      linarith

lemma rnd_eval {q v : ℚ} {e u : ℤ} (h0 : 0 < q) (h1 : qpow2 e ≤ q) (h2 : q < qpow2 (e + 1))
    (hu : max (e - 52) (-1074) = u) (hv : (rhe (q / qpow2 u) : ℚ) * qpow2 u = v) :
    rnd q = v := by
  have he : qexp q = e := qexp_eq h0 h1 h2
  unfold rnd
  rw [if_neg (ne_of_gt h0), if_neg (not_lt.mpr (le_of_lt h0))]
  unfold rndPos ulpExp
  rw [he, hu, hv]

/-! ## Python arithmetic primitives -/

/-- Python `int / int` true division: correctly rounded binary64 quotient,
`ZeroDivisionError` on a zero divisor. -/
def pyIntDiv (a b : ℤ) : Except String ℚ :=
  if b = 0 then .error "ZeroDivisionError: division by zero"
  else .ok (rnd ((a : ℚ) / (b : ℚ)))

/-- Python implicit int-to-float conversion (as in `float * int`, `float / int`):
the integer rounded to the nearest binary64 value. -/
def pyFloatOfInt (b : ℤ) : ℚ := rnd (b : ℚ)

/-- Python float division: IEEE binary64 division, `ZeroDivisionError` on a
zero divisor. -/
def pyDivFF (x y : ℚ) : Except String ℚ :=
  if y = 0 then .error "ZeroDivisionError: float division by zero"
  else .ok (rnd (x / y))

/-- Python `int // int` floor division, `ZeroDivisionError` on a zero divisor. -/
def pyFloorDiv (a b : ℤ) : Except String ℤ :=
  if b = 0 then .error "ZeroDivisionError: integer division or modulo by zero"
  else .ok (Int.fdiv a b)

/-! ## Constants of uniswap_math.py -/

/-- Q64.96 fixed-point scale. -/
def Q96 : ℤ := 2 ^ 96

/-- Smallest-unit scale of an 18-decimals token. -/
def ETH_UNIT : ℤ := 10 ^ 18

/-- Lower bound of the tick range. -/
def MIN_TICK : ℤ := -887272

/-- Upper bound of the tick range. -/
def MAX_TICK : ℤ := 887272

/-! ## The Fixed-Point Converter (uniswap_math.py lines 9-43)

`price_to_tick` embeds `math.floor(math.log(price, 1.0001))`: the libm
logarithms are idealised as exact real logarithms of the exact arguments, and
the exactly-specified `ValueError` that `math.log` raises on a non-positive
argument is modelled precisely.  `tick_to_sqrtP` embeds
`int((math.pow(1.0001, tick) ** 0.5) * Q96)` with the libm power idealised as
an exact real power (the truncation `int(...)` is `Int.floor` because the
value is positive).  `price_to_sqrtP` embeds
`int(math.sqrt(price) * Q96)` exactly: `math.sqrt` is correctly rounded, so
`rndSqrt` below computes its result; `math.sqrt` raises `ValueError` exactly
on negative arguments. -/

noncomputable def price_to_tick (price : ℚ) : Except String ℤ :=
  if price ≤ 0 then .error "ValueError: math domain error"
  else .ok ⌊Real.log (price : ℝ) / Real.log (10001 / 10000 : ℝ)⌋

/-- Floor of the square root of a non-negative rational. -/
def isqrtFloor (r : ℚ) : ℤ := ((Nat.sqrt (r.num.toNat * r.den) / r.den : ℕ) : ℤ)

/-- Round the square root of a non-negative rational to the nearest integer,
ties to even. -/
def sqrtRhe (r : ℚ) : ℤ :=
  if 4 * r < ((2 * isqrtFloor r + 1 : ℤ) : ℚ) ^ 2 then isqrtFloor r
  else if ((2 * isqrtFloor r + 1 : ℤ) : ℚ) ^ 2 < 4 * r then isqrtFloor r + 1
  else if isqrtFloor r % 2 = 0 then isqrtFloor r else isqrtFloor r + 1

/-- The correctly rounded binary64 square root of a non-negative rational
(the behaviour IEEE 754 requires of `math.sqrt` on a double). -/
def rndSqrt (q : ℚ) : ℚ :=
  if q ≤ 0 then 0
  else
    (sqrtRhe (q / qpow2 (2 * max (Int.fdiv (qexp q) 2 - 52) (-1074))) : ℚ)
      * qpow2 (max (Int.fdiv (qexp q) 2 - 52) (-1074))

def price_to_sqrtP (price : ℚ) : Except String ℤ :=
  if price < 0 then .error "ValueError: math domain error"
  else .ok (pyInt (rnd (rndSqrt (rnd price) * pyFloatOfInt Q96)))

noncomputable def tick_to_sqrtP (tick : ℤ) : ℤ :=
  ⌊Real.sqrt ((10001 / 10000 : ℝ) ^ tick) * 2 ^ 96⌋

/-- The price derived from a sqrt-price, `(sqrtP / Q96) ** 2`
(`sqrt_price_to_price` in script.py, computed inline in the quoters),
idealised as an exact rational. -/
def sqrt_price_to_price (s : ℤ) : ℚ := ((s : ℤ) : ℚ) ^ 2 / 2 ^ 192

/-! ## The Liquidity Calculator (uniswap_math.py lines 45-125)

Each range-taking function first canonicalizes its two bounds
(`if sqrtP_lower > sqrtP_upper: swap`); the `_body` definitions are the
function bodies after that swap, and the wrappers perform the swap. -/

/-- Body of `calc_liquidity_0` after canonicalization:
`(amount_0 * (pa * pb) / Q96) / (pb - pa)` |>.  The first division is
`int / int`; the second is `float / int`. -/
def calc_liquidity_0_body (amount_0 pa pb : ℤ) : Except String ℚ :=
  match pyIntDiv (amount_0 * (pa * pb)) Q96 with
  | .error e => .error e
  | .ok x1 => pyDivFF x1 (pyFloatOfInt (pb - pa))

def calc_liquidity_0 (amount_0 sqrtP_lower sqrtP_upper : ℤ) : Except String ℚ :=
  if sqrtP_lower > sqrtP_upper then calc_liquidity_0_body amount_0 sqrtP_upper sqrtP_lower
  else calc_liquidity_0_body amount_0 sqrtP_lower sqrtP_upper

/-- Body of `calc_liquidity_1` after canonicalization:
`amount_1 * Q96 / (pb - pa)` (an `int / int` division). -/
def calc_liquidity_1_body (amount_1 pa pb : ℤ) : Except String ℚ :=
  pyIntDiv (amount_1 * Q96) (pb - pa)

def calc_liquidity_1 (amount_1 sqrtP_lower sqrtP_upper : ℤ) : Except String ℚ :=
  if sqrtP_lower > sqrtP_upper then calc_liquidity_1_body amount_1 sqrtP_upper sqrtP_lower
  else calc_liquidity_1_body amount_1 sqrtP_lower sqrtP_upper

/-- `calc_liquidity`: `int(min(liquidity_0, liquidity_1))` of the two float
liquidity values, computed from `(current, upper)` and `(current, lower)`. -/
def calc_liquidity (amount_0 amount_1 sqrtP_current sqrtP_lower sqrtP_upper : ℤ) :
    Except String ℤ :=
  match calc_liquidity_0 amount_0 sqrtP_current sqrtP_upper with
  | .error e => .error e
  | .ok liquidity_0 =>
    match calc_liquidity_1 amount_1 sqrtP_current sqrtP_lower with
    | .error e => .error e
    | .ok liquidity_1 => .ok (pyInt (min liquidity_0 liquidity_1))

/-- Body of `calc_amount_0` after canonicalization:
`int(liquidity * Q96 * (pb - pa) / pa / pb)`. -/
def calc_amount_0_body (liquidity pa pb : ℤ) : Except String ℤ :=
  match pyIntDiv (liquidity * Q96 * (pb - pa)) pa with
  | .error e => .error e
  | .ok x1 =>
    match pyDivFF x1 (pyFloatOfInt pb) with
    | .error e => .error e
    | .ok x2 => .ok (pyInt x2)

def calc_amount_0 (liquidity sqrtP_lower sqrtP_upper : ℤ) : Except String ℤ :=
  if sqrtP_lower > sqrtP_upper then calc_amount_0_body liquidity sqrtP_upper sqrtP_lower
  else calc_amount_0_body liquidity sqrtP_lower sqrtP_upper

/-- Body of `calc_amount_1` after canonicalization:
`int(liquidity * (pb - pa) / Q96)`. -/
def calc_amount_1_body (liquidity pa pb : ℤ) : Except String ℤ :=
  match pyIntDiv (liquidity * (pb - pa)) Q96 with
  | .error e => .error e
  | .ok x => .ok (pyInt x)

def calc_amount_1 (liquidity sqrtP_lower sqrtP_upper : ℤ) : Except String ℤ :=
  if sqrtP_lower > sqrtP_upper then calc_amount_1_body liquidity sqrtP_upper sqrtP_lower
  else calc_amount_1_body liquidity sqrtP_lower sqrtP_upper

/-! ## The Swap Quoter (uniswap_math.py lines 127-177)

The quoters return the exactly-determined `(new_sqrtP, amount)` components.
After computing the amount, the source computes
`new_tick = price_to_tick((new_sqrtP / Q96) ** 2)`, which raises
`ValueError: math domain error` exactly when `new_sqrtP = 0` (a zero price);
that failure is modelled by the final guard. -/

def quote_exact_input (amount_in liquidity current_sqrtP : ℤ) (zero_for_one : Bool) :
    Except String (ℤ × ℤ) :=
  if zero_for_one then
    match pyFloorDiv (liquidity * Q96 * current_sqrtP)
        (liquidity * Q96 + amount_in * current_sqrtP) with
    | .error e => .error e
    | .ok new_sqrtP =>
      match calc_amount_1 liquidity new_sqrtP current_sqrtP with
      | .error e => .error e
      | .ok amount_out =>
        if new_sqrtP = 0 then .error "ValueError: math domain error"
        else .ok (new_sqrtP, amount_out)
  else
    match pyFloorDiv (amount_in * Q96) liquidity with
    | .error e => .error e
    | .ok price_difference =>
      match calc_amount_0 liquidity (current_sqrtP + price_difference) current_sqrtP with
      | .error e => .error e
      | .ok amount_out =>
        if current_sqrtP + price_difference = 0 then .error "ValueError: math domain error"
        else .ok (current_sqrtP + price_difference, amount_out)

def quote_exact_output (amount_out liquidity current_sqrtP : ℤ) (zero_for_one : Bool) :
    Except String (ℤ × ℤ) :=
  if zero_for_one then
    match pyFloorDiv (amount_out * Q96) liquidity with
    | .error e => .error e
    | .ok price_difference =>
      match calc_amount_0 liquidity (current_sqrtP + price_difference) current_sqrtP with
      | .error e => .error e
      | .ok amount_in =>
        if current_sqrtP + price_difference = 0 then .error "ValueError: math domain error"
        else .ok (current_sqrtP + price_difference, amount_in)
  else
    match pyFloorDiv (liquidity * Q96 * current_sqrtP)
        (liquidity * Q96 + amount_out * current_sqrtP) with
    | .error e => .error e
    | .ok new_sqrtP =>
      match calc_amount_1 liquidity new_sqrtP current_sqrtP with
      | .error e => .error e
      | .ok amount_in =>
        if new_sqrtP = 0 then .error "ValueError: math domain error"
        else .ok (new_sqrtP, amount_in)

/-! ## Spec-side exact formulas (for the refinement claims)

These follow the specification's words (real-valued formulas with
canonicalized bounds), to be compared against the float-based code. -/

/-- The specification's `amount1FromLiquidity`:
`floor(liquidity * (B - A) / 2^96)` on the sorted bounds. -/
def spec_amount1 (liquidity sqrtPriceA sqrtPriceB : ℤ) : ℤ :=
  ⌊((liquidity * (max sqrtPriceA sqrtPriceB - min sqrtPriceA sqrtPriceB) : ℤ) : ℚ) / 2 ^ 96⌋

/-- The specification's real-valued `liquidityFromAmount0`:
`(amount0 * A * B / 2^96) / (B - A)` on the sorted bounds. -/
def spec_liquidity0 (amount0 sqrtPriceA sqrtPriceB : ℤ) : ℚ :=
  (((amount0 * (min sqrtPriceA sqrtPriceB * max sqrtPriceA sqrtPriceB) : ℤ) : ℚ) / 2 ^ 96)
    / ((max sqrtPriceA sqrtPriceB - min sqrtPriceA sqrtPriceB : ℤ) : ℚ)

/-- The specification's real-valued `liquidityFromAmount1`:
`amount1 * 2^96 / (B - A)` on the sorted bounds. -/
def spec_liquidity1 (amount1 sqrtPriceA sqrtPriceB : ℤ) : ℚ :=
  ((amount1 * 2 ^ 96 : ℤ) : ℚ)
    / ((max sqrtPriceA sqrtPriceB - min sqrtPriceA sqrtPriceB : ℤ) : ℚ)

/-! ## Helper lemmas about the embedded functions -/

lemma Q96_pos : (0 : ℤ) < Q96 := by norm_num [Q96]

lemma Q96_ne_zero : (Q96 : ℤ) ≠ 0 := ne_of_gt Q96_pos

lemma fdiv_eq_floor {a b : ℤ} (hb : 0 < b) : Int.fdiv a b = ⌊(a : ℚ) / (b : ℚ)⌋ := by
  have hbt : ((b.toNat : ℤ)) = b := Int.toNat_of_nonneg (le_of_lt hb)
  calc Int.fdiv a b = a / b := Int.fdiv_eq_ediv a (le_of_lt hb)
    _ = a / ((b.toNat : ℕ) : ℤ) := by rw [hbt]
    _ = ⌊((a : ℚ)) / ((b.toNat : ℕ) : ℚ)⌋ := (Rat.floor_intCast_div_natCast a b.toNat).symm
    _ = ⌊(a : ℚ) / (b : ℚ)⌋ := by
        rw [show ((b.toNat : ℕ) : ℚ) = ((b : ℤ) : ℚ) by exact_mod_cast hbt]

lemma ite_swap_symm {α : Sort _} (f : ℤ → ℤ → α) (A B : ℤ) :
    (if A > B then f B A else f A B) = (if B > A then f A B else f B A) := by
  rcases lt_trichotomy A B with h | rfl | h
  · rw [if_neg (not_lt.mpr (le_of_lt h)), if_pos h]
  · rw [if_neg (lt_irrefl A)]
  · rw [if_pos h, if_neg (not_lt.mpr (le_of_lt h))]

lemma calc_amount_1_body_eq (L pa pb : ℤ) :
    calc_amount_1_body L pa pb
      = .ok (pyInt (rnd (((L * (pb - pa) : ℤ) : ℚ) / ((Q96 : ℤ) : ℚ)))) := by
  unfold calc_amount_1_body pyIntDiv
  rw [if_neg Q96_ne_zero]

lemma calc_amount_1_eq_of_le {a b : ℤ} (L : ℤ) (h : a ≤ b) :
    calc_amount_1 L a b
      = .ok (pyInt (rnd (((L * (b - a) : ℤ) : ℚ) / ((Q96 : ℤ) : ℚ)))) := by
  unfold calc_amount_1
  rw [if_neg (not_lt.mpr h)]
  exact calc_amount_1_body_eq L a b

lemma calc_amount_1_always_ok (L a b : ℤ) : ∃ w : ℤ, calc_amount_1 L a b = .ok w := by
  unfold calc_amount_1
  rcases le_or_lt a b with h | h
  · rw [if_neg (not_lt.mpr h), calc_amount_1_body_eq]
    exact ⟨_, rfl⟩
  · rw [if_pos h, calc_amount_1_body_eq]
    exact ⟨_, rfl⟩

lemma calc_amount_1_eq_bounds (L c : ℤ) : calc_amount_1 L c c = .ok 0 := by
  rw [calc_amount_1_eq_of_le L (le_refl c)]
  rw [show ((L * (c - c) : ℤ) : ℚ) = 0 by push_cast ; ring]
  rw [zero_div, rnd_zero, pyInt_zero]

lemma calc_amount_0_body_eq {pa : ℤ} (L pb : ℤ) (hpa : pa ≠ 0) (hpb : pb ≠ 0) :
    calc_amount_0_body L pa pb
      = .ok (pyInt (rnd (rnd (((L * Q96 * (pb - pa) : ℤ) : ℚ) / ((pa : ℤ) : ℚ))
          / rnd ((pb : ℤ) : ℚ)))) := by
  simp only [calc_amount_0_body, pyIntDiv, pyDivFF, pyFloatOfInt, if_neg hpa,
    if_neg (rnd_ne_zero_of_int hpb)]

lemma calc_amount_0_eq_bounds (L c : ℤ) (hc : c ≠ 0) : calc_amount_0 L c c = .ok 0 := by
  unfold calc_amount_0
  rw [if_neg (lt_irrefl c)]
  rw [calc_amount_0_body_eq L c hc hc]
  rw [show ((L * Q96 * (c - c) : ℤ) : ℚ) = 0 by push_cast ; ring]
  rw [zero_div, rnd_zero, zero_div, rnd_zero, pyInt_zero]

/-- C7: every range-taking operation of the Liquidity Calculator is invariant
under swapping its two sqrt-price bound arguments, because reversed bounds are
canonicalized by swapping before any arithmetic; in particular
`calc_amount_0 L A B = calc_amount_0 L B A` for all bounds. -/
theorem c7_canonicalization_symmetry :
    (∀ L A B : ℤ, calc_amount_0 L A B = calc_amount_0 L B A) ∧
    (∀ L A B : ℤ, calc_amount_1 L A B = calc_amount_1 L B A) ∧
    (∀ a A B : ℤ, calc_liquidity_0 a A B = calc_liquidity_0 a B A) ∧
    (∀ a A B : ℤ, calc_liquidity_1 a A B = calc_liquidity_1 a B A) := by
  refine ⟨fun L A B => ?_, fun L A B => ?_, fun a A B => ?_, fun a A B => ?_⟩
  · exact ite_swap_symm (fun x y => calc_amount_0_body L x y) A B
  · exact ite_swap_symm (fun x y => calc_amount_1_body L x y) A B
  · exact ite_swap_symm (fun x y => calc_liquidity_0_body a x y) A B
  · exact ite_swap_symm (fun x y => calc_liquidity_1_body a x y) A B

lemma bq_nonneg : (0 : ℚ) ≤ 10001 / 10000 := by norm_num

lemma pow_bound_sq_up {x u v : ℚ} {n m : ℕ} (hm : m = 2 * n) (hx : 0 ≤ x)
    (hu : x ^ n ≤ u) (huv : u ^ 2 ≤ v) : x ^ m ≤ v := by
  subst hm
  calc x ^ (2 * n) = (x ^ n) ^ 2 := by rw [mul_comm, pow_mul]
    _ ≤ u ^ 2 := pow_le_pow_left (pow_nonneg hx n) hu 2
    _ ≤ v := huv

lemma pow_bound_mul_up {x u v w : ℚ} {m n k : ℕ} (hk : k = m + n) (hx : 0 ≤ x)
    (hu : x ^ m ≤ u) (hv : x ^ n ≤ v) (hw : u * v ≤ w) : x ^ k ≤ w := by
  subst hk
  rw [pow_add]
  exact le_trans
    (mul_le_mul hu hv (pow_nonneg hx n) (le_trans (pow_nonneg hx m) hu)) hw

lemma pow_bound_sq_down {x l v : ℚ} {n m : ℕ} (hm : m = 2 * n) (hl : 0 ≤ l)
    (hu : l ≤ x ^ n) (hv : v ≤ l ^ 2) : v ≤ x ^ m := by
  subst hm
  calc v ≤ l ^ 2 := hv
    _ ≤ (x ^ n) ^ 2 := pow_le_pow_left hl hu 2
    _ = x ^ (2 * n) := by rw [mul_comm, pow_mul]

lemma pow_bound_mul_down {x l v w : ℚ} {m n k : ℕ} (hk : k = m + n) (hl : 0 ≤ l)
    (hv : 0 ≤ v) (hu : l ≤ x ^ m) (hvx : v ≤ x ^ n) (hw : w ≤ l * v) : w ≤ x ^ k := by
  subst hk
  rw [pow_add]
  exact le_trans hw (mul_le_mul hu hvx hv (le_trans hl hu))

lemma bq_ub_0 : ((10001 : ℚ) / 10000) ^ (1 : ℕ) ≤ 1000100000000 / 1000000000000 := by norm_num

lemma bq_ub_1 : ((10001 : ℚ) / 10000) ^ (2 : ℕ) ≤ 1000200010000 / 1000000000000 :=
  pow_bound_sq_up (by norm_num) bq_nonneg bq_ub_0 (by norm_num)

lemma bq_ub_2 : ((10001 : ℚ) / 10000) ^ (4 : ℕ) ≤ 1000400060005 / 1000000000000 :=
  pow_bound_sq_up (by norm_num) bq_nonneg bq_ub_1 (by norm_num)

lemma bq_ub_3 : ((10001 : ℚ) / 10000) ^ (8 : ℕ) ≤ 1000800280059 / 1000000000000 :=
  pow_bound_sq_up (by norm_num) bq_nonneg bq_ub_2 (by norm_num)

lemma bq_ub_4 : ((10001 : ℚ) / 10000) ^ (16 : ℕ) ≤ 1001601200567 / 1000000000000 :=
  pow_bound_sq_up (by norm_num) bq_nonneg bq_ub_3 (by norm_num)

lemma bq_ub_5 : ((10001 : ℚ) / 10000) ^ (32 : ℕ) ≤ 1003204964978 / 1000000000000 :=
  pow_bound_sq_up (by norm_num) bq_nonneg bq_ub_4 (by norm_num)

lemma bq_ub_6 : ((10001 : ℚ) / 10000) ^ (64 : ℕ) ≤ 1006420201757 / 1000000000000 :=
  pow_bound_sq_up (by norm_num) bq_nonneg bq_ub_5 (by norm_num)

lemma bq_ub_7 : ((10001 : ℚ) / 10000) ^ (128 : ℕ) ≤ 1012881622505 / 1000000000000 :=
  pow_bound_sq_up (by norm_num) bq_nonneg bq_ub_6 (by norm_num)

lemma bq_ub_8 : ((10001 : ℚ) / 10000) ^ (256 : ℕ) ≤ 1025929181209 / 1000000000000 :=
  pow_bound_sq_up (by norm_num) bq_nonneg bq_ub_7 (by norm_num)

lemma bq_ub_9 : ((10001 : ℚ) / 10000) ^ (512 : ℕ) ≤ 1052530684857 / 1000000000000 :=
  pow_bound_sq_up (by norm_num) bq_nonneg bq_ub_8 (by norm_num)

lemma bq_ub_10 : ((10001 : ℚ) / 10000) ^ (1024 : ℕ) ≤ 1107820842566 / 1000000000000 :=
  pow_bound_sq_up (by norm_num) bq_nonneg bq_ub_9 (by norm_num)

lemma bq_ub_11 : ((10001 : ℚ) / 10000) ^ (2048 : ℕ) ≤ 1227267019224 / 1000000000000 :=
  pow_bound_sq_up (by norm_num) bq_nonneg bq_ub_10 (by norm_num)

lemma bq_ub_12 : ((10001 : ℚ) / 10000) ^ (4096 : ℕ) ≤ 1506184336475 / 1000000000000 :=
  pow_bound_sq_up (by norm_num) bq_nonneg bq_ub_11 (by norm_num)

lemma bq_ub_13 : ((10001 : ℚ) / 10000) ^ (8192 : ℕ) ≤ 2268591255443 / 1000000000000 :=
  pow_bound_sq_up (by norm_num) bq_nonneg bq_ub_12 (by norm_num)

lemma bq_ub_14 : ((10001 : ℚ) / 10000) ^ (16384 : ℕ) ≤ 5146506284273 / 1000000000000 :=
  pow_bound_sq_up (by norm_num) bq_nonneg bq_ub_13 (by norm_num)

lemma bq_ub_15 : ((10001 : ℚ) / 10000) ^ (32768 : ℕ) ≤ 26486526934062 / 1000000000000 :=
  pow_bound_sq_up (by norm_num) bq_nonneg bq_ub_14 (by norm_num)

lemma bq_ub_16 : ((10001 : ℚ) / 10000) ^ (65536 : ℕ) ≤ 701536109028792 / 1000000000000 :=
  pow_bound_sq_up (by norm_num) bq_nonneg bq_ub_15 (by norm_num)

lemma bq_ub_17 : ((10001 : ℚ) / 10000) ^ (131072 : ℕ) ≤ 492152912271257137 / 1000000000000 :=
  pow_bound_sq_up (by norm_num) bq_nonneg bq_ub_16 (by norm_num)

lemma bq_ub_18 : ((10001 : ℚ) / 10000) ^ (262144 : ℕ) ≤ 242214489057079723824247 / 1000000000000 :=
  pow_bound_sq_up (by norm_num) bq_nonneg bq_ub_17 (by norm_num)

lemma bq_lb_0 : (1000100000000 : ℚ) / 1000000000000 ≤ ((10001 : ℚ) / 10000) ^ (1 : ℕ) := by norm_num

lemma bq_lb_1 : (1000200010000 : ℚ) / 1000000000000 ≤ ((10001 : ℚ) / 10000) ^ (2 : ℕ) :=
  pow_bound_sq_down (by norm_num) (by norm_num) bq_lb_0 (by norm_num)

lemma bq_lb_2 : (1000400060004 : ℚ) / 1000000000000 ≤ ((10001 : ℚ) / 10000) ^ (4 : ℕ) :=
  pow_bound_sq_down (by norm_num) (by norm_num) bq_lb_1 (by norm_num)

lemma bq_lb_3 : (1000800280056 : ℚ) / 1000000000000 ≤ ((10001 : ℚ) / 10000) ^ (8 : ℕ) :=
  pow_bound_sq_down (by norm_num) (by norm_num) bq_lb_2 (by norm_num)

lemma bq_lb_4 : (1001601200560 : ℚ) / 1000000000000 ≤ ((10001 : ℚ) / 10000) ^ (16 : ℕ) :=
  pow_bound_sq_down (by norm_num) (by norm_num) bq_lb_3 (by norm_num)

lemma bq_lb_5 : (1003204964963 : ℚ) / 1000000000000 ≤ ((10001 : ℚ) / 10000) ^ (32 : ℕ) :=
  pow_bound_sq_down (by norm_num) (by norm_num) bq_lb_4 (by norm_num)

lemma bq_lb_6 : (1006420201726 : ℚ) / 1000000000000 ≤ ((10001 : ℚ) / 10000) ^ (64 : ℕ) :=
  pow_bound_sq_down (by norm_num) (by norm_num) bq_lb_5 (by norm_num)

lemma bq_lb_7 : (1012881622442 : ℚ) / 1000000000000 ≤ ((10001 : ℚ) / 10000) ^ (128 : ℕ) :=
  pow_bound_sq_down (by norm_num) (by norm_num) bq_lb_6 (by norm_num)

lemma bq_lb_8 : (1025929181080 : ℚ) / 1000000000000 ≤ ((10001 : ℚ) / 10000) ^ (256 : ℕ) :=
  pow_bound_sq_down (by norm_num) (by norm_num) bq_lb_7 (by norm_num)

lemma bq_lb_9 : (1052530684591 : ℚ) / 1000000000000 ≤ ((10001 : ℚ) / 10000) ^ (512 : ℕ) :=
  pow_bound_sq_down (by norm_num) (by norm_num) bq_lb_8 (by norm_num)

lemma bq_lb_10 : (1107820842005 : ℚ) / 1000000000000 ≤ ((10001 : ℚ) / 10000) ^ (1024 : ℕ) :=
  pow_bound_sq_down (by norm_num) (by norm_num) bq_lb_9 (by norm_num)

lemma bq_lb_11 : (1227267017980 : ℚ) / 1000000000000 ≤ ((10001 : ℚ) / 10000) ^ (2048 : ℕ) :=
  pow_bound_sq_down (by norm_num) (by norm_num) bq_lb_10 (by norm_num)

lemma bq_lb_12 : (1506184333421 : ℚ) / 1000000000000 ≤ ((10001 : ℚ) / 10000) ^ (4096 : ℕ) :=
  pow_bound_sq_down (by norm_num) (by norm_num) bq_lb_11 (by norm_num)

lemma bq_lb_13 : (2268591246242 : ℚ) / 1000000000000 ≤ ((10001 : ℚ) / 10000) ^ (8192 : ℕ) :=
  pow_bound_sq_down (by norm_num) (by norm_num) bq_lb_12 (by norm_num)

lemma bq_lb_14 : (5146506242525 : ℚ) / 1000000000000 ≤ ((10001 : ℚ) / 10000) ^ (16384 : ℕ) :=
  pow_bound_sq_down (by norm_num) (by norm_num) bq_lb_13 (by norm_num)

lemma bq_lb_15 : (26486526504348 : ℚ) / 1000000000000 ≤ ((10001 : ℚ) / 10000) ^ (32768 : ℕ) :=
  pow_bound_sq_down (by norm_num) (by norm_num) bq_lb_14 (by norm_num)

lemma bq_lb_16 : (701536086265529 : ℚ) / 1000000000000 ≤ ((10001 : ℚ) / 10000) ^ (65536 : ℕ) :=
  pow_bound_sq_down (by norm_num) (by norm_num) bq_lb_15 (by norm_num)

lemma bq_pow_85176_le : ((10001 : ℚ) / 10000) ^ (85176 : ℕ) ≤ 5000 := by
  have h1 : ((10001 : ℚ) / 10000) ^ (24 : ℕ) ≤ 1002402762035 / 1000000000000 :=
    pow_bound_mul_up (by norm_num) bq_nonneg bq_ub_3 bq_ub_4 (by norm_num)
  have h2 : ((10001 : ℚ) / 10000) ^ (56 : ℕ) ≤ 1005615427782 / 1000000000000 :=
    pow_bound_mul_up (by norm_num) bq_nonneg h1 bq_ub_5 (by norm_num)
  have h3 : ((10001 : ℚ) / 10000) ^ (184 : ℕ) ≤ 1018569386108 / 1000000000000 :=
    pow_bound_mul_up (by norm_num) bq_nonneg h2 bq_ub_7 (by norm_num)
  have h4 : ((10001 : ℚ) / 10000) ^ (1208 : ℕ) ≤ 1128392395531 / 1000000000000 :=
    pow_bound_mul_up (by norm_num) bq_nonneg h3 bq_ub_10 (by norm_num)
  have h5 : ((10001 : ℚ) / 10000) ^ (3256 : ℕ) ≤ 1384838771779 / 1000000000000 :=
    pow_bound_mul_up (by norm_num) bq_nonneg h4 bq_ub_11 (by norm_num)
  have h6 : ((10001 : ℚ) / 10000) ^ (19640 : ℕ) ≤ 7127081441666 / 1000000000000 :=
    pow_bound_mul_up (by norm_num) bq_nonneg h5 bq_ub_14 (by norm_num)
  have h7 : ((10001 : ℚ) / 10000) ^ (85176 : ℕ) ≤ 4999904983317680 / 1000000000000 :=
    pow_bound_mul_up (by norm_num) bq_nonneg h6 bq_ub_16 (by norm_num)
  exact le_trans h7 (by norm_num)

lemma bq_pow_85177_gt : (5000 : ℚ) < ((10001 : ℚ) / 10000) ^ (85177 : ℕ) := by
  have h1 : (1000900360084 : ℚ) / 1000000000000 ≤ ((10001 : ℚ) / 10000) ^ (9 : ℕ) :=
    pow_bound_mul_down (by norm_num) (by norm_num) (by norm_num) bq_lb_0 bq_lb_3 (by norm_num)
  have h2 : (1002503002301 : ℚ) / 1000000000000 ≤ ((10001 : ℚ) / 10000) ^ (25 : ℕ) :=
    pow_bound_mul_down (by norm_num) (by norm_num) (by norm_num) h1 bq_lb_4 (by norm_num)
  have h3 : (1005715989298 : ℚ) / 1000000000000 ≤ ((10001 : ℚ) / 10000) ^ (57 : ℕ) :=
    pow_bound_mul_down (by norm_num) (by norm_num) (by norm_num) h2 bq_lb_5 (by norm_num)
  have h4 : (1018671242956 : ℚ) / 1000000000000 ≤ ((10001 : ℚ) / 10000) ^ (185 : ℕ) :=
    pow_bound_mul_down (by norm_num) (by norm_num) (by norm_num) h3 bq_lb_7 (by norm_num)
  have h5 : (1128505234097 : ℚ) / 1000000000000 ≤ ((10001 : ℚ) / 10000) ^ (1209 : ℕ) :=
    pow_bound_mul_down (by norm_num) (by norm_num) (by norm_num) h4 bq_lb_10 (by norm_num)
  have h6 : (1384977253425 : ℚ) / 1000000000000 ≤ ((10001 : ℚ) / 10000) ^ (3257 : ℕ) :=
    pow_bound_mul_down (by norm_num) (by norm_num) (by norm_num) h5 bq_lb_11 (by norm_num)
  have h7 : (7127794080506 : ℚ) / 1000000000000 ≤ ((10001 : ℚ) / 10000) ^ (19641 : ℕ) :=
    pow_bound_mul_down (by norm_num) (by norm_num) (by norm_num) h6 bq_lb_14 (by norm_num)
  have h8 : (5000404762944784 : ℚ) / 1000000000000 ≤ ((10001 : ℚ) / 10000) ^ (85177 : ℕ) :=
    pow_bound_mul_down (by norm_num) (by norm_num) (by norm_num) h7 bq_lb_16 (by norm_num)
  exact lt_of_lt_of_le (by norm_num) h8

lemma bq_pow_443636_le : ((10001 : ℚ) / 10000) ^ (443636 : ℕ) ≤ 2 * 10 ^ 19 := by
  have h1 : ((10001 : ℚ) / 10000) ^ (20 : ℕ) ≤ 1002001901149 / 1000000000000 :=
    pow_bound_mul_up (by norm_num) bq_nonneg bq_ub_2 bq_ub_4 (by norm_num)
  have h2 : ((10001 : ℚ) / 10000) ^ (52 : ℕ) ≤ 1005213282151 / 1000000000000 :=
    pow_bound_mul_up (by norm_num) bq_nonneg h1 bq_ub_5 (by norm_num)
  have h3 : ((10001 : ℚ) / 10000) ^ (116 : ℕ) ≤ 1011666954232 / 1000000000000 :=
    pow_bound_mul_up (by norm_num) bq_nonneg h2 bq_ub_6 (by norm_num)
  have h4 : ((10001 : ℚ) / 10000) ^ (244 : ℕ) ≤ 1024698866038 / 1000000000000 :=
    pow_bound_mul_up (by norm_num) bq_nonneg h3 bq_ub_7 (by norm_num)
  have h5 : ((10001 : ℚ) / 10000) ^ (1268 : ℕ) ≤ 1135182761151 / 1000000000000 :=
    pow_bound_mul_up (by norm_num) bq_nonneg h4 bq_ub_10 (by norm_num)
  have h6 : ((10001 : ℚ) / 10000) ^ (17652 : ℕ) ≤ 5842225214062 / 1000000000000 :=
    pow_bound_mul_up (by norm_num) bq_nonneg h5 bq_ub_14 (by norm_num)
  have h7 : ((10001 : ℚ) / 10000) ^ (50420 : ℕ) ≤ 154740255487110 / 1000000000000 :=
    pow_bound_mul_up (by norm_num) bq_nonneg h6 bq_ub_15 (by norm_num)
  have h8 : ((10001 : ℚ) / 10000) ^ (181492 : ℕ) ≤ 76155867383579563647 / 1000000000000 :=
    pow_bound_mul_up (by norm_num) bq_nonneg h7 bq_ub_17 (by norm_num)
  have h9 : ((10001 : ℚ) / 10000) ^ (443636 : ℕ) ≤ 18446054507012446877451782847745 / 1000000000000 :=
    pow_bound_mul_up (by norm_num) bq_nonneg h8 bq_ub_18 (by norm_num)
  exact le_trans h9 (by norm_num)

/-- C9: `price_to_tick(5000) = 85176` (the libm logarithms idealised as exact
real logarithms; the true log ratio is about `85176.19`, far from the floor
boundary). -/
theorem c9_price_to_tick_5000 : price_to_tick 5000 = .ok 85176 := by
  unfold price_to_tick
  rw [if_neg (by norm_num)]
  congr 1
  rw [show (((5000 : ℚ)) : ℝ) = (5000 : ℝ) by norm_num]
  have hb : (0 : ℝ) < Real.log (10001 / 10000) := Real.log_pos (by norm_num)
  rw [Int.floor_eq_iff]
  constructor
  · rw [le_div_iff hb]
    have hcast : ((85176 : ℤ) : ℝ) * Real.log (10001 / 10000)
        = Real.log ((10001 / 10000) ^ (85176 : ℕ)) := by
      rw [Real.log_pow] ; push_cast ; ring
    rw [hcast]
    have hle : ((10001 : ℝ) / 10000) ^ (85176 : ℕ) ≤ 5000 := by
      have h0 : ((((10001 : ℚ) / 10000) ^ (85176 : ℕ) : ℚ) : ℝ) ≤ ((5000 : ℚ) : ℝ) :=
        Rat.cast_le.mpr bq_pow_85176_le
      push_cast at h0
      exact h0
    exact (Real.log_le_log_iff (by positivity) (by norm_num)).mpr hle
  · rw [div_lt_iff hb]
    have hcast : (((85176 : ℤ) : ℝ) + 1) * Real.log (10001 / 10000)
        = Real.log ((10001 / 10000) ^ (85177 : ℕ)) := by
      rw [Real.log_pow] ; push_cast ; ring
    rw [hcast]
    apply Real.log_lt_log (by norm_num)
    have h0 : (((5000 : ℚ) : ℚ) : ℝ) < ((((10001 : ℚ) / 10000) ^ (85177 : ℕ) : ℚ) : ℝ) :=
      Rat.cast_lt.mpr bq_pow_85177_gt
    push_cast at h0
    exact h0

lemma price_to_sqrtP_zero : price_to_sqrtP 0 = .ok 0 := by
  unfold price_to_sqrtP
  rw [if_neg (lt_irrefl 0), rnd_zero]
  rw [show rndSqrt 0 = 0 by unfold rndSqrt ; rw [if_pos (le_refl (0 : ℚ))]]
  rw [zero_mul, rnd_zero, pyInt_zero]

/-- C3 counterexample: `price_to_sqrtP` does not fail on the non-positive
price `0`; it silently returns `0` (`math.sqrt(0)` succeeds), refuting the
claim that both conversions fail for every `price <= 0`. -/
theorem c3_counterexample : price_to_sqrtP 0 = .ok 0 := price_to_sqrtP_zero

/-- C3 amended: for every price `p <= 0`, `price_to_tick` fails with a
`ValueError`; `price_to_sqrtP` fails only for `p < 0` and returns `0` at
`p = 0`. -/
theorem c3_amended (p : ℚ) (hp : p ≤ 0) :
    price_to_tick p = .error "ValueError: math domain error" ∧
    (p < 0 → price_to_sqrtP p = .error "ValueError: math domain error") ∧
    (p = 0 → price_to_sqrtP p = .ok 0) := by
  refine ⟨?_, fun hlt => ?_, fun heq => ?_⟩
  · unfold price_to_tick
    rw [if_pos hp]
  · unfold price_to_sqrtP
    rw [if_pos hlt]
  · subst heq
    exact price_to_sqrtP_zero

/-- C3 witness: the amended theorem applied at the concrete price `-1`. -/
theorem c3_witness :
    price_to_tick (-1) = .error "ValueError: math domain error" ∧
    price_to_sqrtP (-1) = .error "ValueError: math domain error" := by
  obtain ⟨h1, h2, h3⟩ := c3_amended (-1) (by norm_num)
  exact ⟨h1, h2 (by norm_num)⟩

lemma calc_amount_1_nonpos (L a b : ℤ) (hL : L ≤ 0) (hab : a < b) :
    ∃ w : ℤ, calc_amount_1 L a b = .ok w ∧ w ≤ 0 := by
  rw [calc_amount_1_eq_of_le L (le_of_lt hab)]
  refine ⟨_, rfl, ?_⟩
  have hnum : ((L * (b - a) : ℤ) : ℚ) ≤ 0 := by
    have h1 : (L * (b - a) : ℤ) ≤ 0 := mul_nonpos_iff.mpr (Or.inr ⟨hL, by omega⟩)
    exact_mod_cast h1
  have hQ : (0 : ℚ) ≤ ((Q96 : ℤ) : ℚ) := by norm_num [Q96]
  have hq : ((L * (b - a) : ℤ) : ℚ) / ((Q96 : ℤ) : ℚ) ≤ 0 :=
    div_nonpos_iff.mpr (Or.inr ⟨hnum, hQ⟩)
  exact (pyInt_nonpos (rnd_nonpos hq)).1

lemma calc_amount_0_nonpos (L a b : ℤ) (hL : L ≤ 0) (h0 : 0 < a) (hab : a < b) :
    ∃ v : ℤ, calc_amount_0 L a b = .ok v ∧ v ≤ 0 := by
  unfold calc_amount_0
  rw [if_neg (not_lt.mpr (le_of_lt hab))]
  rw [calc_amount_0_body_eq L b (ne_of_gt h0) (ne_of_gt (by omega))]
  refine ⟨_, rfl, ?_⟩
  have hnum : ((L * Q96 * (b - a) : ℤ) : ℚ) ≤ 0 := by
    have h1 : L * Q96 ≤ 0 := mul_nonpos_iff.mpr (Or.inr ⟨hL, le_of_lt Q96_pos⟩)
    have h2 : (L * Q96 * (b - a) : ℤ) ≤ 0 :=
      mul_nonpos_iff.mpr (Or.inr ⟨h1, by omega⟩)
    exact_mod_cast h2
  have hx1 : rnd (((L * Q96 * (b - a) : ℤ) : ℚ) / ((a : ℤ) : ℚ)) ≤ 0 := by
    apply rnd_nonpos
    apply div_nonpos_iff.mpr
    refine Or.inr ⟨hnum, by exact_mod_cast le_of_lt h0⟩
  have hd : 0 < rnd ((b : ℤ) : ℚ) := by
    apply rnd_pos_of_one_le
    exact_mod_cast (show (1 : ℤ) ≤ b by omega)
  have hq : rnd (((L * Q96 * (b - a) : ℤ) : ℚ) / ((a : ℤ) : ℚ)) / rnd ((b : ℤ) : ℚ) ≤ 0 :=
    div_nonpos_iff.mpr (Or.inr ⟨hx1, le_of_lt hd⟩)
  exact (pyInt_nonpos (rnd_nonpos hq)).1

lemma quote_exact_input_zero_liquidity_true (a P : ℤ) (ha : 0 < a) (hP : 0 < P) :
    quote_exact_input a 0 P true = .error "ValueError: math domain error" := by
  unfold quote_exact_input pyFloorDiv
  rw [if_pos rfl]
  rw [show (0 * Q96 + a * P : ℤ) = a * P by ring]
  rw [if_neg (ne_of_gt (mul_pos ha hP))]
  rw [show (0 * Q96 * P : ℤ) = 0 by ring, Int.zero_fdiv]
  obtain ⟨w, hw⟩ := calc_amount_1_always_ok 0 0 P
  simp only [hw]
  rw [if_pos trivial]

lemma quote_exact_input_zero_liquidity_false (a P : ℤ) :
    quote_exact_input a 0 P false
      = .error "ZeroDivisionError: integer division or modulo by zero" := by
  unfold quote_exact_input pyFloorDiv
  rw [if_neg (by simp)]
  rw [if_pos rfl]

lemma pyInt_neg (x : ℚ) : pyInt (-x) = -pyInt x := by
  unfold pyInt
  rcases lt_trichotomy x 0 with h | rfl | h
  · rw [if_neg (show ¬(-x < 0) by linarith), if_pos h]
    ring
  · norm_num
  · rw [if_pos (show -x < 0 by linarith), if_neg (not_lt.mpr (le_of_lt h)), neg_neg]

/-- Reduction of the `zeroForOne = true` branch of `quote_exact_input` once
its floor quotient and `calc_amount_1` value are known. -/
lemma quote_exact_input_true_eq {a L P n w : ℤ} (hden : L * Q96 + a * P ≠ 0)
    (hn : Int.fdiv (L * Q96 * P) (L * Q96 + a * P) = n)
    (hw : calc_amount_1 L n P = .ok w) :
    quote_exact_input a L P true
      = if n = 0 then .error "ValueError: math domain error" else .ok (n, w) := by
  unfold quote_exact_input pyFloorDiv
  rw [if_pos rfl, if_neg hden, hn]
  simp only [hw]

/-- Reduction of the `zeroForOne = false` branch of `quote_exact_input` once
its price difference and `calc_amount_0` value are known. -/
lemma quote_exact_input_false_eq {a L P d w : ℤ} (hL : L ≠ 0)
    (hd : Int.fdiv (a * Q96) L = d)
    (hw : calc_amount_0 L (P + d) P = .ok w) :
    quote_exact_input a L P false
      = if P + d = 0 then .error "ValueError: math domain error" else .ok (P + d, w) := by
  unfold quote_exact_input pyFloorDiv
  rw [if_neg Bool.false_ne_true, if_neg hL, hd]
  simp only [hw]

/-- Reduction of the `zeroForOne = true` branch of `quote_exact_output` once
its price difference and `calc_amount_0` value are known. -/
lemma quote_exact_output_true_eq {a L P d w : ℤ} (hL : L ≠ 0)
    (hd : Int.fdiv (a * Q96) L = d)
    (hw : calc_amount_0 L (P + d) P = .ok w) :
    quote_exact_output a L P true
      = if P + d = 0 then .error "ValueError: math domain error" else .ok (P + d, w) := by
  unfold quote_exact_output pyFloorDiv
  rw [if_pos rfl, if_neg hL, hd]
  simp only [hw]

/-- Reduction of the `zeroForOne = false` branch of `quote_exact_output` once
its floor quotient and `calc_amount_1` value are known. -/
lemma quote_exact_output_false_eq {a L P n w : ℤ} (hden : L * Q96 + a * P ≠ 0)
    (hn : Int.fdiv (L * Q96 * P) (L * Q96 + a * P) = n)
    (hw : calc_amount_1 L n P = .ok w) :
    quote_exact_output a L P false
      = if n = 0 then .error "ValueError: math domain error" else .ok (n, w) := by
  unfold quote_exact_output pyFloorDiv
  rw [if_neg Bool.false_ne_true, if_neg hden, hn]
  simp only [hw]

lemma quote_exact_input_neg_liquidity_example :
    quote_exact_input (2 * Q96) (-1) 1 true = .ok (-1, 0) := by
  have hden : ((-1) * Q96 + (2 * Q96) * 1 : ℤ) ≠ 0 := by
    rw [show ((-1) * Q96 + (2 * Q96) * 1 : ℤ) = Q96 by ring]
    exact Q96_ne_zero
  have hn : Int.fdiv ((-1) * Q96 * 1) ((-1) * Q96 + (2 * Q96) * 1) = -1 := by
    rw [show ((-1) * Q96 + (2 * Q96) * 1 : ℤ) = Q96 by ring,
      show ((-1) * Q96 * 1 : ℤ) = (-1) * Q96 by ring,
      Int.mul_fdiv_cancel (-1) Q96_ne_zero]
  have hrn : rnd ((2 : ℚ) / 2 ^ 96) = 2 / 2 ^ 96 := by
    apply rnd_eval (show (0 : ℚ) < 2 / 2 ^ 96 by norm_num)
      (show qpow2 (-95) ≤ (2 : ℚ) / 2 ^ 96 by rw [qpow2_eq_zpow] ; norm_num)
      (show (2 : ℚ) / 2 ^ 96 < qpow2 (-95 + 1) by rw [qpow2_eq_zpow] ; norm_num)
      (show max (-95 - 52 : ℤ) (-1074) = -147 by norm_num)
    rw [qpow2_eq_zpow]
    norm_num [rhe]
  have hw : calc_amount_1 (-1) (-1) 1 = .ok 0 := by
    rw [calc_amount_1_eq_of_le (-1) (show (-1 : ℤ) ≤ 1 by norm_num)]
    rw [show (((-1) * (1 - -1) : ℤ) : ℚ) = -2 by norm_num,
      show ((Q96 : ℤ) : ℚ) = 2 ^ 96 by norm_num [Q96],
      show (-2 : ℚ) / 2 ^ 96 = -(2 / 2 ^ 96) by ring,
      rnd_neg, hrn, pyInt_neg]
    rw [show pyInt ((2 : ℚ) / 2 ^ 96) = 0 by unfold pyInt ; norm_num]
    norm_num
  rw [quote_exact_input_true_eq hden hn hw]
  norm_num

/-- C2 counterexample: `calc_amount_1` called with equal sqrt-price bounds
(a degenerate zero-width range) does not fail; it silently returns `0`,
refuting the claim that such calls surface a failure to the caller. -/
theorem c2_counterexample : calc_amount_1 1 100 100 = .ok 0 :=
  calc_amount_1_eq_bounds 1 100

/-- C2 amended: the degenerate amount-derivation calls do not fail: with equal
nonzero bounds both `calc_amount_0` and `calc_amount_1` silently return `0`,
and with liquidity `<= 0` and distinct positive bounds they silently return a
non-positive value.  Swap quotes with zero liquidity do fail, but with untyped
dynamic errors (`ValueError` from the tick conversion in the `zeroForOne`
branch, `ZeroDivisionError` in the other), and a quote with negative
liquidity can even return normally (with a negative new sqrt-price). -/
theorem c2_amended :
    (∀ L c : ℤ, c ≠ 0 → calc_amount_0 L c c = .ok 0 ∧ calc_amount_1 L c c = .ok 0) ∧
    (∀ L a b : ℤ, L ≤ 0 → 0 < a → a < b →
      (∃ v : ℤ, calc_amount_0 L a b = .ok v ∧ v ≤ 0) ∧
      (∃ w : ℤ, calc_amount_1 L a b = .ok w ∧ w ≤ 0)) ∧
    (∀ a P : ℤ, 0 < a → 0 < P →
      quote_exact_input a 0 P true = .error "ValueError: math domain error" ∧
      quote_exact_input a 0 P false
        = .error "ZeroDivisionError: integer division or modulo by zero") ∧
    quote_exact_input (2 * Q96) (-1) 1 true = .ok (-1, 0) := by
  refine ⟨fun L c hc => ⟨calc_amount_0_eq_bounds L c hc, calc_amount_1_eq_bounds L c⟩,
    fun L a b hL ha hab => ⟨calc_amount_0_nonpos L a b hL ha hab,
      calc_amount_1_nonpos L a b hL hab⟩,
    fun a P ha hP => ⟨quote_exact_input_zero_liquidity_true a P ha hP,
      quote_exact_input_zero_liquidity_false a P⟩,
    quote_exact_input_neg_liquidity_example⟩

/-- C2 witness: the amended theorem applied at concrete inputs: equal bounds
`(100, 100)` with liquidity `3`, and a zero-liquidity quote at
`amount = 5`, `P = 7`. -/
theorem c2_witness :
    (calc_amount_0 3 100 100 = .ok 0 ∧ calc_amount_1 3 100 100 = .ok 0) ∧
    quote_exact_input 5 0 7 true = .error "ValueError: math domain error" := by
  exact ⟨c2_amended.1 3 100 (by norm_num),
    (c2_amended.2.2.1 5 7 (by norm_num) (by norm_num)).1⟩

/-- C10: quoting a zero amount is an identity: all four quoter branches with
amount `0` return the unchanged sqrt-price `P` and a zero counter-amount. -/
theorem c10_zero_amount_identity (L P : ℤ) (hL : 1 ≤ L) (hP : 1 ≤ P) :
    quote_exact_input 0 L P true = .ok (P, 0) ∧
    quote_exact_input 0 L P false = .ok (P, 0) ∧
    quote_exact_output 0 L P true = .ok (P, 0) ∧
    quote_exact_output 0 L P false = .ok (P, 0) := by
  have hLne : L ≠ 0 := by omega
  have hLQ : L * Q96 ≠ 0 := mul_ne_zero hLne Q96_ne_zero
  have hden : L * Q96 + 0 * P ≠ 0 := by
    rw [show (L * Q96 + 0 * P : ℤ) = L * Q96 by ring]
    exact hLQ
  have hn : Int.fdiv (L * Q96 * P) (L * Q96 + 0 * P) = P := by
    rw [show (L * Q96 + 0 * P : ℤ) = L * Q96 by ring]
    exact Int.mul_fdiv_cancel_left P hLQ
  have hw1 : calc_amount_1 L P P = .ok 0 := calc_amount_1_eq_bounds L P
  have hd : Int.fdiv (0 * Q96) L = 0 := by rw [zero_mul, Int.zero_fdiv]
  have hw0 : calc_amount_0 L (P + 0) P = .ok 0 := by
    rw [add_zero]
    exact calc_amount_0_eq_bounds L P (by omega)
  refine ⟨?_, ?_, ?_, ?_⟩
  · rw [quote_exact_input_true_eq hden hn hw1, if_neg (by omega)]
  · rw [quote_exact_input_false_eq hLne hd hw0, if_neg (by omega)]
    rw [add_zero]
  · rw [quote_exact_output_true_eq hLne hd hw0, if_neg (by omega)]
    rw [add_zero]
  · rw [quote_exact_output_false_eq hden hn hw1, if_neg (by omega)]

/-- C10 witness: the zero-amount identity at the concrete pool state
`L = 1`, `P = 1`. -/
theorem c10_witness :
    quote_exact_input 0 1 1 true = .ok (1, 0) ∧
    quote_exact_input 0 1 1 false = .ok (1, 0) ∧
    quote_exact_output 0 1 1 true = .ok (1, 0) ∧
    quote_exact_output 0 1 1 false = .ok (1, 0) :=
  c10_zero_amount_identity 1 1 (by norm_num) (by norm_num)

/-- C1: the directional invariant fails on `quote_exact_output`.  At the
concrete input `amount_out = 1`, `liquidity = 1`, `current_sqrtP = 1` with
`zeroForOne = true` the quoter returns `new_sqrtP = 2^96 + 1`, strictly
GREATER than the current sqrt-price `1`, although selling token0
(`zeroForOne = true`) must not increase the price: the exact-output branches
add the price difference with the wrong sign (they are the exact-input
branches copied with the direction flag swapped but the arithmetic not
inverted), contradicting both the documented meaning of `zero_for_one` and
the spec's directional invariant. -/
theorem c1_quote_exact_output_direction_bug :
    quote_exact_output 1 1 1 true = .ok (2 ^ 96 + 1, 2 ^ 96) ∧ (1 : ℤ) < 2 ^ 96 + 1 := by
  have hd : Int.fdiv (1 * Q96) 1 = Q96 := by rw [one_mul, Int.fdiv_one]
  have hQ1 : (1 : ℤ) < 1 + Q96 := by have := Q96_pos ; omega
  have hr192 : rnd ((2 : ℚ) ^ 192) = 2 ^ 192 := by
    apply rnd_eval (show (0 : ℚ) < 2 ^ 192 by norm_num)
      (show qpow2 192 ≤ (2 : ℚ) ^ 192 by rw [qpow2_eq_zpow] ; norm_num)
      (show (2 : ℚ) ^ 192 < qpow2 (192 + 1) by rw [qpow2_eq_zpow] ; norm_num)
      (show max (192 - 52 : ℤ) (-1074) = 140 by norm_num)
    rw [qpow2_eq_zpow]
    norm_num [rhe]
  have hr96 : rnd ((2 : ℚ) ^ 96 + 1) = 2 ^ 96 := by
    apply rnd_eval (show (0 : ℚ) < 2 ^ 96 + 1 by norm_num)
      (show qpow2 96 ≤ (2 : ℚ) ^ 96 + 1 by rw [qpow2_eq_zpow] ; norm_num)
      (show (2 : ℚ) ^ 96 + 1 < qpow2 (96 + 1) by rw [qpow2_eq_zpow] ; norm_num)
      (show max (96 - 52 : ℤ) (-1074) = 44 by norm_num)
    rw [qpow2_eq_zpow]
    norm_num [rhe]
  have hr96e : rnd ((2 : ℚ) ^ 96) = 2 ^ 96 := by
    apply rnd_eval (show (0 : ℚ) < 2 ^ 96 by norm_num)
      (show qpow2 96 ≤ (2 : ℚ) ^ 96 by rw [qpow2_eq_zpow] ; norm_num)
      (show (2 : ℚ) ^ 96 < qpow2 (96 + 1) by rw [qpow2_eq_zpow] ; norm_num)
      (show max (96 - 52 : ℤ) (-1074) = 44 by norm_num)
    rw [qpow2_eq_zpow]
    norm_num [rhe]
  have hw : calc_amount_0 1 (1 + Q96) 1 = .ok (2 ^ 96) := by
    unfold calc_amount_0
    rw [if_pos hQ1]
    rw [calc_amount_0_body_eq 1 (1 + Q96) one_ne_zero (by have := Q96_pos ; omega)]
    rw [show ((1 * Q96 * (1 + Q96 - 1) : ℤ) : ℚ) = 2 ^ 192 by norm_num [Q96],
      show ((1 : ℤ) : ℚ) = 1 by norm_num, div_one, hr192,
      show ((1 + Q96 : ℤ) : ℚ) = 2 ^ 96 + 1 by norm_num [Q96],
      hr96,
      show ((2 : ℚ) ^ 192) / 2 ^ 96 = 2 ^ 96 by norm_num
        [show (192 : ℕ) = 96 + 96 from rfl, pow_add],
      hr96e,
      show pyInt ((2 : ℚ) ^ 96) = 2 ^ 96 by unfold pyInt ; norm_num]
  rw [quote_exact_output_true_eq one_ne_zero hd hw,
    if_neg (show ¬(1 + Q96 = 0) by have := Q96_pos ; omega)]
  refine ⟨?_, by norm_num⟩
  rw [show (1 + Q96 : ℤ) = 2 ^ 96 + 1 by norm_num [Q96]]

/-- C4 counterexample: with `amountIn = 2^96`, `liquidity = 1`, `P = 2` the
floor quotient for the new sqrt-price is `0`, and `quote_exact_input` with
`zeroForOne = true` raises `ValueError` from the tick conversion
(`math.log` of the zero price) instead of returning the quoted values. -/
theorem c4_counterexample :
    quote_exact_input (2 ^ 96) 1 2 true = .error "ValueError: math domain error" := by
  have hden : (1 * Q96 + 2 ^ 96 * 2 : ℤ) ≠ 0 := by norm_num [Q96]
  have hn : Int.fdiv (1 * Q96 * 2) (1 * Q96 + 2 ^ 96 * 2) = 0 := by
    rw [fdiv_eq_floor (show (0 : ℤ) < 1 * Q96 + 2 ^ 96 * 2 by norm_num [Q96])]
    norm_num [Q96]
  obtain ⟨w, hw⟩ := calc_amount_1_always_ok 1 0 2
  rw [quote_exact_input_true_eq hden hn hw, if_pos rfl]

/-- C4 amended: for positive `amountIn`, `liquidity`, and current sqrt-price,
the `zeroForOne = true` exact-input quote computes its new sqrt-price as the
claimed floor `⌊L * 2^96 * P / (L * 2^96 + amountIn * P)⌋` and its
counter-amount by the `amount1FromLiquidity` call `calc_amount_1 L newSqrtP P`
— but it returns them only when that floor is at least `1`; when the floor is
`0` the call raises `ValueError` (log of a zero price) instead of
returning. -/
theorem c4_amended (a L P : ℤ) (ha : 1 ≤ a) (hL : 1 ≤ L) (hP : 1 ≤ P) :
    Int.fdiv (L * Q96 * P) (L * Q96 + a * P)
        = ⌊((L * Q96 * P : ℤ) : ℚ) / ((L * Q96 + a * P : ℤ) : ℚ)⌋ ∧
    (1 ≤ Int.fdiv (L * Q96 * P) (L * Q96 + a * P) →
      ∃ w : ℤ, calc_amount_1 L (Int.fdiv (L * Q96 * P) (L * Q96 + a * P)) P = .ok w ∧
        quote_exact_input a L P true
          = .ok (Int.fdiv (L * Q96 * P) (L * Q96 + a * P), w)) ∧
    (Int.fdiv (L * Q96 * P) (L * Q96 + a * P) = 0 →
      quote_exact_input a L P true = .error "ValueError: math domain error") := by
  have hdenpos : 0 < L * Q96 + a * P := by nlinarith [Q96_pos]
  refine ⟨fdiv_eq_floor hdenpos, fun h1 => ?_, fun h0 => ?_⟩
  · obtain ⟨w, hw⟩ := calc_amount_1_always_ok L (Int.fdiv (L * Q96 * P) (L * Q96 + a * P)) P
    refine ⟨w, hw, ?_⟩
    rw [quote_exact_input_true_eq (ne_of_gt hdenpos) rfl hw, if_neg (by omega)]
  · obtain ⟨w, hw⟩ := calc_amount_1_always_ok L (Int.fdiv (L * Q96 * P) (L * Q96 + a * P)) P
    rw [quote_exact_input_true_eq (ne_of_gt hdenpos) rfl hw, if_pos h0]

/-- C4 witness: the amended theorem at `amountIn = 1`, `liquidity = 1`,
`P = 2`, where the floor quotient is `1`. -/
theorem c4_witness :
    ∃ w : ℤ,
      calc_amount_1 1 (Int.fdiv (1 * Q96 * 2) (1 * Q96 + 1 * 2)) 2 = .ok w ∧
      quote_exact_input 1 1 2 true
        = .ok (Int.fdiv (1 * Q96 * 2) (1 * Q96 + 1 * 2), w) := by
  apply (c4_amended 1 1 2 (by norm_num) (by norm_num) (by norm_num)).2.1
  rw [fdiv_eq_floor (show (0 : ℤ) < 1 * Q96 + 1 * 2 by norm_num [Q96])]
  norm_num [Q96]

lemma pyInt_rnd_err {q : ℚ} (hq : 0 ≤ q) :
    |((pyInt (rnd q) : ℤ) : ℚ) - q| ≤ 1 + q * qpow2 (-53) + qpow2 (-1075) := by
  have h1 := rnd_err q
  rw [abs_of_nonneg hq, abs_le] at h1
  have h2 : 0 ≤ rnd q := rnd_nonneg hq
  have h3 : ((pyInt (rnd q) : ℤ) : ℚ) ≤ rnd q := pyInt_le h2
  have h4 : rnd q - 1 < ((pyInt (rnd q) : ℤ) : ℚ) := pyInt_gt h2
  rw [abs_le]
  constructor <;> linarith [h1.1, h1.2]

/-- C6 counterexample: `calc_amount_1(2^97 - 1, 1, 2)` returns `2`, while the
specification's `floor(liquidity * (B - A) / 2^96)` is `1`: the float-division
rounding of `(2^97 - 1) / 2^96` rounds up to `2.0` before truncation. -/
theorem c6_counterexample :
    calc_amount_1 (2 ^ 97 - 1) 1 2 = .ok 2 ∧ spec_amount1 (2 ^ 97 - 1) 1 2 = 1 ∧
      (2 : ℤ) ≠ 1 := by
  refine ⟨?_, ?_, by norm_num⟩
  · rw [calc_amount_1_eq_of_le (2 ^ 97 - 1) (show (1 : ℤ) ≤ 2 by norm_num)]
    rw [show (((2 ^ 97 - 1) * (2 - 1) : ℤ) : ℚ) = 2 ^ 97 - 1 by norm_num,
      show ((Q96 : ℤ) : ℚ) = 2 ^ 96 by norm_num [Q96]]
    have hrn : rnd ((2 ^ 97 - 1 : ℚ) / 2 ^ 96) = 2 := by
      apply rnd_eval (show (0 : ℚ) < (2 ^ 97 - 1 : ℚ) / 2 ^ 96 by norm_num)
        (show qpow2 0 ≤ (2 ^ 97 - 1 : ℚ) / 2 ^ 96 by rw [qpow2_eq_zpow] ; norm_num)
        (show (2 ^ 97 - 1 : ℚ) / 2 ^ 96 < qpow2 (0 + 1) by rw [qpow2_eq_zpow] ; norm_num)
        (show max (0 - 52 : ℤ) (-1074) = -52 by norm_num)
      rw [qpow2_eq_zpow]
      norm_num [rhe]
    rw [hrn, show pyInt (2 : ℚ) = 2 by unfold pyInt ; norm_num]
  · unfold spec_amount1
    norm_num

/-- C6 amended: for positive liquidity and distinct positive bounds,
`calc_amount_1` returns a value within `1 + q * 2^(-53) + 2^(-1075)` of the
exact rational quotient `q = liquidity * (B - A) / 2^96` on the sorted bounds
(instead of exactly `⌊q⌋`: one binary64 rounding of the division, then
truncation by `int()`). -/
theorem c6_amended (L a b : ℤ) (hL : 1 ≤ L) (ha : 0 < a) (hb : 0 < b) (hab : a ≠ b) :
    ∃ w : ℤ, calc_amount_1 L a b = .ok w ∧
      |(w : ℚ) - ((L * (max a b - min a b) : ℤ) : ℚ) / 2 ^ 96|
        ≤ 1 + ((L * (max a b - min a b) : ℤ) : ℚ) / 2 ^ 96 * qpow2 (-53) + qpow2 (-1075) := by
  rcases lt_or_gt_of_ne hab with h | h
  · rw [max_eq_right (le_of_lt h), min_eq_left (le_of_lt h)]
    rw [calc_amount_1_eq_of_le L (le_of_lt h)]
    refine ⟨_, rfl, ?_⟩
    rw [show ((Q96 : ℤ) : ℚ) = 2 ^ 96 by norm_num [Q96]]
    apply pyInt_rnd_err
    have hnum : (0 : ℤ) ≤ L * (b - a) := by nlinarith
    have hq : (0 : ℚ) ≤ ((L * (b - a) : ℤ) : ℚ) := by exact_mod_cast hnum
    exact div_nonneg hq (by norm_num)
  · rw [max_eq_left (le_of_lt h), min_eq_right (le_of_lt h)]
    unfold calc_amount_1
    rw [if_pos h, calc_amount_1_body_eq L b a]
    refine ⟨_, rfl, ?_⟩
    rw [show ((Q96 : ℤ) : ℚ) = 2 ^ 96 by norm_num [Q96]]
    apply pyInt_rnd_err
    have hnum : (0 : ℤ) ≤ L * (a - b) := by nlinarith
    have hq : (0 : ℚ) ≤ ((L * (a - b) : ℤ) : ℚ) := by exact_mod_cast hnum
    exact div_nonneg hq (by norm_num)

/-- C6 witness: the amended error bound at the concrete call
`calc_amount_1(3, 1, 2)`. -/
theorem c6_witness :
    ∃ w : ℤ, calc_amount_1 3 1 2 = .ok w ∧
      |(w : ℚ) - ((3 * (max (1 : ℤ) 2 - min (1 : ℤ) 2) : ℤ) : ℚ) / 2 ^ 96|
        ≤ 1 + ((3 * (max (1 : ℤ) 2 - min (1 : ℤ) 2) : ℤ) : ℚ) / 2 ^ 96 * qpow2 (-53)
          + qpow2 (-1075) :=
  c6_amended 3 1 2 (by norm_num) (by norm_num) (by norm_num) (by norm_num)

lemma rnd_bounds_of_nonneg {y : ℚ} (hy : 0 ≤ y) :
    y * (1 - qpow2 (-52)) - qpow2 (-1074) ≤ rnd y ∧
    rnd y ≤ y * (1 + qpow2 (-52)) + qpow2 (-1074) := by
  have h := rnd_err y
  rw [abs_of_nonneg hy, abs_le] at h
  have h53 : qpow2 (-53) ≤ qpow2 (-52) := qpow2_le_qpow2 (by norm_num)
  have h75 : qpow2 (-1075) ≤ qpow2 (-1074) := qpow2_le_qpow2 (by norm_num)
  have hm1 := mul_le_mul_of_nonneg_left h53 hy
  constructor <;> nlinarith [h.1, h.2]

lemma qpow2_neg52_le : qpow2 (-52) ≤ 1 / 16 := by
  have h := qpow2_le_qpow2 (show (-52 : ℤ) ≤ -4 by norm_num)
  have : qpow2 (-4) = 1 / 16 := by rw [qpow2_eq_zpow] ; norm_num
  linarith

lemma qpow2_neg1074_le_neg52 : qpow2 (-1074) ≤ qpow2 (-52) :=
  qpow2_le_qpow2 (by norm_num)

lemma qpow2_neg49_eq : qpow2 (-49) = 8 * qpow2 (-52) := by
  rw [show (-49 : ℤ) = 3 + -52 by norm_num, qpow2_add]
  rw [show qpow2 3 = 8 by rw [qpow2_eq_zpow] ; norm_num]

lemma qpow2_neg1071_eq : qpow2 (-1071) = 8 * qpow2 (-1074) := by
  rw [show (-1071 : ℤ) = 3 + -1074 by norm_num, qpow2_add]
  rw [show qpow2 3 = 8 by rw [qpow2_eq_zpow] ; norm_num]

set_option maxHeartbeats 3200000 in
/-- Error propagation for dividing one already-rounded nonnegative value by an
already-rounded divisor and rounding the quotient: if `x` approximates `X`
and `d` approximates `D ≥ 1` within one-rounding bounds, then `rnd (x / d)`
approximates `X / D` within the looser `2^(-49)` relative and `2^(-1071)`
absolute bounds. -/
lemma rnd_div_bounds {x d X D : ℚ} (hX : 0 ≤ X) (hD : 1 ≤ D) (hx0 : 0 ≤ x) (hd0 : 0 < d)
    (hx1 : X * (1 - qpow2 (-52)) - qpow2 (-1074) ≤ x)
    (hx2 : x ≤ X * (1 + qpow2 (-52)) + qpow2 (-1074))
    (hd1 : D * (1 - 2 * qpow2 (-52)) ≤ d) (hd2 : d ≤ D * (1 + 2 * qpow2 (-52))) :
    X / D * (1 - qpow2 (-49)) - qpow2 (-1071) ≤ rnd (x / d) ∧
    rnd (x / d) ≤ X / D * (1 + qpow2 (-49)) + qpow2 (-1071) := by
  set μ := qpow2 (-52) with hμdef
  set ν := qpow2 (-1074) with hνdef
  have hμ : 0 < μ := qpow2_pos _
  have hν : 0 < ν := qpow2_pos _
  have hμ16 : μ ≤ 1 / 16 := qpow2_neg52_le
  have hνμ : ν ≤ μ := qpow2_neg1074_le_neg52
  have hD0 : (0 : ℚ) < D := by linarith
  set Z := X / D with hZdef
  have hZ : 0 ≤ Z := div_nonneg hX (le_of_lt hD0)
  have hZD : Z * D = X := div_mul_cancel₀ X (ne_of_gt hD0)
  have hZD0 : 0 ≤ Z * D := mul_nonneg hZ (le_of_lt hD0)
  have h2μ : (7 : ℚ) / 8 ≤ 1 - 2 * μ := by linarith
  have hden : (0 : ℚ) < D * (1 - 2 * μ) := mul_pos hD0 (by linarith)
  have hD78 : (7 : ℚ) / 8 ≤ D * (1 - 2 * μ) := by
    have s1 : (1 : ℚ) * (7 / 8) ≤ D * (7 / 8) :=
      mul_le_mul_of_nonneg_right hD (by norm_num)
    have s2 : D * (7 / 8) ≤ D * (1 - 2 * μ) :=
      mul_le_mul_of_nonneg_left h2μ (le_of_lt hD0)
    linarith
  have hz0 : 0 ≤ x / d := div_nonneg hx0 (le_of_lt hd0)
  -- upper bound on the exact quotient x / d
  have hzu : x / d ≤ Z * (1 + 4 * μ) + 2 * ν := by
    have hnum : (0 : ℚ) ≤ X * (1 + μ) + ν := by
      have := mul_nonneg hX (show (0 : ℚ) ≤ 1 + μ by linarith)
      linarith
    have hstep : x / d ≤ (X * (1 + μ) + ν) / (D * (1 - 2 * μ)) :=
      div_le_div hnum hx2 hden hd1
    have hfin : (X * (1 + μ) + ν) / (D * (1 - 2 * μ)) ≤ Z * (1 + 4 * μ) + 2 * ν := by
      rw [div_le_iff hden, ← hZD]
      have f1 : 0 ≤ Z * D * (μ * (1 - 8 * μ)) :=
        mul_nonneg hZD0 (mul_nonneg (le_of_lt hμ) (by linarith))
      have f2 : ν ≤ 2 * ν * (D * (1 - 2 * μ)) := by
        have := mul_le_mul_of_nonneg_left hD78 (show (0 : ℚ) ≤ 2 * ν by linarith)
        linarith
      nlinarith [f1, f2]
    linarith
  -- lower bound on the exact quotient x / d
  have hzl : Z * (1 - 4 * μ) - 2 * ν ≤ x / d := by
    rcases le_or_lt (X * (1 - μ) - ν) 0 with hc | hc
    · have hZX : Z ≤ X := div_le_self hX hD
      have hX2 : X ≤ 2 * ν := by nlinarith
      have hZμ : 0 ≤ Z * (4 * μ) := mul_nonneg hZ (by linarith)
      nlinarith
    · have hstep : (X * (1 - μ) - ν) / (D * (1 + 2 * μ)) ≤ x / d :=
        div_le_div hx0 hx1 hd0 hd2
      have hpos2 : (0 : ℚ) < D * (1 + 2 * μ) := mul_pos hD0 (by linarith)
      have hfin : Z * (1 - 4 * μ) - 2 * ν ≤ (X * (1 - μ) - ν) / (D * (1 + 2 * μ)) := by
        rw [le_div_iff hpos2, ← hZD]
        have f3 : 0 ≤ Z * D * (μ * (1 + 8 * μ)) :=
          mul_nonneg hZD0 (mul_nonneg (le_of_lt hμ) (by linarith))
        have f4 : ν ≤ 2 * ν * (D * (1 + 2 * μ)) := by
          have s3 : (1 : ℚ) ≤ D * (1 + 2 * μ) := by nlinarith
          have := mul_le_mul_of_nonneg_left s3 (show (0 : ℚ) ≤ 2 * ν by linarith)
          linarith
        nlinarith [f3, f4]
      linarith
  -- final rounding of the quotient
  obtain ⟨hrl, hru⟩ := rnd_bounds_of_nonneg hz0
  rw [show qpow2 (-49) = 8 * μ from qpow2_neg49_eq,
    show qpow2 (-1071) = 8 * ν from qpow2_neg1071_eq]
  have k1 : rnd (x / d) ≤ (Z * (1 + 4 * μ) + 2 * ν) * (1 + μ) + ν := by
    have := mul_le_mul_of_nonneg_right hzu (show (0 : ℚ) ≤ 1 + μ by linarith)
    linarith
  have k2 : (Z * (1 - 4 * μ) - 2 * ν) * (1 - μ) - ν ≤ rnd (x / d) := by
    have := mul_le_mul_of_nonneg_right hzl (show (0 : ℚ) ≤ 1 - μ by linarith)
    linarith
  have g1 : 0 ≤ Z * μ * (3 - 4 * μ) :=
    mul_nonneg (mul_nonneg hZ (le_of_lt hμ)) (by linarith)
  have g2 : 0 ≤ ν * (5 - 2 * μ) := mul_nonneg (le_of_lt hν) (by linarith)
  have g3 : 0 ≤ Z * μ * (3 + 4 * μ) :=
    mul_nonneg (mul_nonneg hZ (le_of_lt hμ)) (by linarith)
  have g4 : 0 ≤ ν * (5 + 2 * μ) := mul_nonneg (le_of_lt hν) (by linarith)
  constructor
  · nlinarith [k2, g3, g4]
  · nlinarith [k1, g1, g2]

lemma calc_liquidity_1_body_eq (a1 pa pb : ℤ) (hne : pb - pa ≠ 0) :
    calc_liquidity_1_body a1 pa pb
      = .ok (rnd (((a1 * Q96 : ℤ) : ℚ) / ((pb - pa : ℤ) : ℚ))) := by
  simp only [calc_liquidity_1_body, pyIntDiv, if_neg hne]

lemma calc_liquidity_0_body_eq (a0 pa pb : ℤ) (hne : rnd (((pb - pa : ℤ)) : ℚ) ≠ 0) :
    calc_liquidity_0_body a0 pa pb
      = .ok (rnd (rnd (((a0 * (pa * pb) : ℤ) : ℚ) / ((Q96 : ℤ) : ℚ))
          / rnd (((pb - pa : ℤ)) : ℚ))) := by
  simp only [calc_liquidity_0_body, pyIntDiv, pyDivFF, pyFloatOfInt, if_neg Q96_ne_zero,
    if_neg hne]

lemma weaken_one_rnd {S l : ℚ} (hS : 0 ≤ S)
    (h1 : S * (1 - qpow2 (-52)) - qpow2 (-1074) ≤ l)
    (h2 : l ≤ S * (1 + qpow2 (-52)) + qpow2 (-1074)) :
    S * (1 - qpow2 (-49)) - qpow2 (-1071) ≤ l ∧
    l ≤ S * (1 + qpow2 (-49)) + qpow2 (-1071) := by
  have hμ : 0 < qpow2 (-52) := qpow2_pos _
  have hν : 0 < qpow2 (-1074) := qpow2_pos _
  have hm : 0 ≤ S * (7 * qpow2 (-52)) := mul_nonneg hS (by linarith)
  rw [qpow2_neg49_eq, qpow2_neg1071_eq]
  constructor <;> nlinarith

lemma calc_liquidity_1_sorted_err (a1 A B : ℤ) (h1 : 0 ≤ a1) (hAB : A < B) :
    ∃ l1 : ℚ, calc_liquidity_1_body a1 A B = .ok l1 ∧ 0 ≤ l1 ∧
      ((a1 * 2 ^ 96 : ℤ) : ℚ) / ((B - A : ℤ) : ℚ) * (1 - qpow2 (-49)) - qpow2 (-1071) ≤ l1 ∧
      l1 ≤ ((a1 * 2 ^ 96 : ℤ) : ℚ) / ((B - A : ℤ) : ℚ) * (1 + qpow2 (-49)) + qpow2 (-1071) := by
  rw [calc_liquidity_1_body_eq a1 A B (by omega)]
  rw [show (Q96 : ℤ) = 2 ^ 96 from rfl]
  have hS : (0 : ℚ) ≤ ((a1 * 2 ^ 96 : ℤ) : ℚ) / ((B - A : ℤ) : ℚ) := by
    apply div_nonneg
    · exact_mod_cast (show (0 : ℤ) ≤ a1 * 2 ^ 96 by positivity)
    · exact_mod_cast (show (0 : ℤ) ≤ B - A by omega)
  obtain ⟨hl, hr⟩ := rnd_bounds_of_nonneg hS
  exact ⟨_, rfl, rnd_nonneg hS, (weaken_one_rnd hS hl hr).1, (weaken_one_rnd hS hl hr).2⟩

lemma calc_liquidity_0_sorted_err (a0 A B : ℤ) (h0 : 0 ≤ a0) (hA : 0 < A) (hAB : A < B) :
    ∃ l0 : ℚ, calc_liquidity_0_body a0 A B = .ok l0 ∧ 0 ≤ l0 ∧
      ((a0 * (A * B) : ℤ) : ℚ) / 2 ^ 96 / ((B - A : ℤ) : ℚ) * (1 - qpow2 (-49))
          - qpow2 (-1071) ≤ l0 ∧
      l0 ≤ ((a0 * (A * B) : ℤ) : ℚ) / 2 ^ 96 / ((B - A : ℤ) : ℚ) * (1 + qpow2 (-49))
          + qpow2 (-1071) := by
  have hμ : 0 < qpow2 (-52) := qpow2_pos _
  have hν : 0 < qpow2 (-1074) := qpow2_pos _
  have hνμ : qpow2 (-1074) ≤ qpow2 (-52) := qpow2_neg1074_le_neg52
  have hD1 : (1 : ℚ) ≤ ((B - A : ℤ) : ℚ) := by
    exact_mod_cast (show (1 : ℤ) ≤ B - A by omega)
  have hD0 : (0 : ℚ) < ((B - A : ℤ) : ℚ) := by linarith
  have hd0 : 0 < rnd (((B - A : ℤ)) : ℚ) := rnd_pos_of_one_le hD1
  rw [calc_liquidity_0_body_eq a0 A B (ne_of_gt hd0)]
  have hXq : (0 : ℚ) ≤ ((a0 * (A * B) : ℤ) : ℚ) / ((Q96 : ℤ) : ℚ) := by
    apply div_nonneg
    · exact_mod_cast
        mul_nonneg h0 (mul_nonneg (le_of_lt hA) (le_of_lt (lt_trans hA hAB)))
    · exact_mod_cast (show (0 : ℤ) ≤ Q96 from le_of_lt Q96_pos)
  obtain ⟨hx1, hx2⟩ := rnd_bounds_of_nonneg hXq
  obtain ⟨hdl, hdr⟩ := rnd_bounds_of_nonneg (le_of_lt hD0)
  have hDμ : qpow2 (-1074) ≤ ((B - A : ℤ) : ℚ) * qpow2 (-52) := by
    have := mul_le_mul_of_nonneg_right hD1 (le_of_lt hμ)
    linarith
  have hd1 : ((B - A : ℤ) : ℚ) * (1 - 2 * qpow2 (-52)) ≤ rnd (((B - A : ℤ)) : ℚ) := by
    nlinarith [hdl, hDμ]
  have hd2 : rnd (((B - A : ℤ)) : ℚ) ≤ ((B - A : ℤ) : ℚ) * (1 + 2 * qpow2 (-52)) := by
    nlinarith [hdr, hDμ]
  obtain ⟨hbl, hbr⟩ := rnd_div_bounds hXq hD1 (rnd_nonneg hXq) hd0 hx1 hx2 hd1 hd2
  refine ⟨_, rfl, rnd_nonneg (div_nonneg (rnd_nonneg hXq) (le_of_lt hd0)), ?_, ?_⟩
  · rw [show ((Q96 : ℤ) : ℚ) = (2 : ℚ) ^ 96 by norm_num [Q96]] at hbl
    exact hbl
  · rw [show ((Q96 : ℤ) : ℚ) = (2 : ℚ) ^ 96 by norm_num [Q96]] at hbr
    exact hbr

lemma calc_liquidity_1_err (a1 pa pb : ℤ) (h1 : 0 ≤ a1) (hne : pa ≠ pb) :
    ∃ l1 : ℚ, calc_liquidity_1 a1 pa pb = .ok l1 ∧ 0 ≤ l1 ∧
      spec_liquidity1 a1 pa pb * (1 - qpow2 (-49)) - qpow2 (-1071) ≤ l1 ∧
      l1 ≤ spec_liquidity1 a1 pa pb * (1 + qpow2 (-49)) + qpow2 (-1071) := by
  unfold calc_liquidity_1 spec_liquidity1
  rcases lt_or_gt_of_ne hne with h | h
  · rw [if_neg (not_lt.mpr (le_of_lt h)), max_eq_right (le_of_lt h), min_eq_left (le_of_lt h)]
    exact calc_liquidity_1_sorted_err a1 pa pb h1 h
  · rw [if_pos h, max_eq_left (le_of_lt h), min_eq_right (le_of_lt h)]
    exact calc_liquidity_1_sorted_err a1 pb pa h1 h

lemma calc_liquidity_0_err (a0 pa pb : ℤ) (h0 : 0 ≤ a0) (hpa : 0 < pa) (hpb : 0 < pb)
    (hne : pa ≠ pb) :
    ∃ l0 : ℚ, calc_liquidity_0 a0 pa pb = .ok l0 ∧ 0 ≤ l0 ∧
      spec_liquidity0 a0 pa pb * (1 - qpow2 (-49)) - qpow2 (-1071) ≤ l0 ∧
      l0 ≤ spec_liquidity0 a0 pa pb * (1 + qpow2 (-49)) + qpow2 (-1071) := by
  unfold calc_liquidity_0 spec_liquidity0
  rcases lt_or_gt_of_ne hne with h | h
  · rw [if_neg (not_lt.mpr (le_of_lt h)), max_eq_right (le_of_lt h), min_eq_left (le_of_lt h)]
    exact calc_liquidity_0_sorted_err a0 pa pb h0 hpa h
  · rw [if_pos h, max_eq_left (le_of_lt h), min_eq_right (le_of_lt h)]
    exact calc_liquidity_0_sorted_err a0 pb pa h0 hpb h

lemma spec_liquidity0_nonneg {a0 pa pb : ℤ} (h0 : 0 ≤ a0) (hpa : 0 < pa) (hpb : 0 < pb) :
    0 ≤ spec_liquidity0 a0 pa pb := by
  unfold spec_liquidity0
  apply div_nonneg
  · apply div_nonneg
    · have : (0 : ℤ) ≤ a0 * (min pa pb * max pa pb) := by
        apply mul_nonneg h0
        apply mul_nonneg
        · exact le_of_lt (lt_min hpa hpb)
        · exact le_of_lt (lt_max_of_lt_left hpa)
      exact_mod_cast this
    · norm_num
  · exact_mod_cast (show (0 : ℤ) ≤ max pa pb - min pa pb by
      have hmm : min pa pb ≤ max pa pb := min_le_max ; omega)

lemma spec_liquidity1_nonneg {a1 pa pb : ℤ} (h1 : 0 ≤ a1) :
    0 ≤ spec_liquidity1 a1 pa pb := by
  unfold spec_liquidity1
  apply div_nonneg
  · exact_mod_cast (show (0 : ℤ) ≤ a1 * 2 ^ 96 by positivity)
  · exact_mod_cast (show (0 : ℤ) ≤ max pa pb - min pa pb by
      have hmm : min pa pb ≤ max pa pb := min_le_max ; omega)

/-- C5 amended: for non-negative deposits and distinct positive bounds,
`calc_liquidity` returns an integer within
`1 + min(L0, L1) * 2^(-49) + 2^(-1071)` of `min(L0, L1)`, where `L0`, `L1`
are the specification's real-valued liquidity formulas applied to
`(current, upper)` and `(current, lower)` — rather than exactly
`⌊min(L0, L1)⌋`: the helpers evaluate their formulas in binary64
floating-point (a rounding per division and per int-to-float conversion)
before `int()` truncates the minimum. -/
theorem c5_amended (a0 a1 c lo hi : ℤ) (h0 : 0 ≤ a0) (h1 : 0 ≤ a1) (hc : 0 < c)
    (hlo : 0 < lo) (hhi : 0 < hi) (hch : c ≠ hi) (hcl : c ≠ lo) :
    ∃ v : ℤ, calc_liquidity a0 a1 c lo hi = .ok v ∧
      |(v : ℚ) - min (spec_liquidity0 a0 c hi) (spec_liquidity1 a1 c lo)|
        ≤ 1 + min (spec_liquidity0 a0 c hi) (spec_liquidity1 a1 c lo) * qpow2 (-49)
          + qpow2 (-1071) := by
  obtain ⟨l0, he0, hl00, hl0l, hl0r⟩ := calc_liquidity_0_err a0 c hi h0 hc hhi hch
  obtain ⟨l1, he1, hl10, hl1l, hl1r⟩ := calc_liquidity_1_err a1 c lo h1 hcl
  have hS0 : 0 ≤ spec_liquidity0 a0 c hi := spec_liquidity0_nonneg h0 hc hhi
  have hS1 : 0 ≤ spec_liquidity1 a1 c lo := spec_liquidity1_nonneg h1
  have hs : 0 < qpow2 (-49) := qpow2_pos _
  have ht : 0 < qpow2 (-1071) := qpow2_pos _
  have hs1 : qpow2 (-49) ≤ 1 := by
    have := qpow2_le_qpow2 (show (-49 : ℤ) ≤ 0 by norm_num)
    rw [qpow2_zero] at this
    exact this
  refine ⟨pyInt (min l0 l1), ?_, ?_⟩
  · simp only [calc_liquidity, he0, he1]
  · have hm0 : 0 ≤ min (spec_liquidity0 a0 c hi) (spec_liquidity1 a1 c lo) := le_min hS0 hS1
    have hminu : min l0 l1
        ≤ min (spec_liquidity0 a0 c hi) (spec_liquidity1 a1 c lo) * (1 + qpow2 (-49))
          + qpow2 (-1071) := by
      rcases le_total (spec_liquidity0 a0 c hi) (spec_liquidity1 a1 c lo) with hS | hS
      · rw [min_eq_left hS]
        calc min l0 l1 ≤ l0 := min_le_left _ _
          _ ≤ _ := hl0r
      · rw [min_eq_right hS]
        calc min l0 l1 ≤ l1 := min_le_right _ _
          _ ≤ _ := hl1r
    have hminl : min (spec_liquidity0 a0 c hi) (spec_liquidity1 a1 c lo) * (1 - qpow2 (-49))
          - qpow2 (-1071) ≤ min l0 l1 := by
      apply le_min
      · have hmle : min (spec_liquidity0 a0 c hi) (spec_liquidity1 a1 c lo)
            ≤ spec_liquidity0 a0 c hi := min_le_left _ _
        have := mul_le_mul_of_nonneg_right hmle (show (0 : ℚ) ≤ 1 - qpow2 (-49) by linarith)
        linarith
      · have hmle : min (spec_liquidity0 a0 c hi) (spec_liquidity1 a1 c lo)
            ≤ spec_liquidity1 a1 c lo := min_le_right _ _
        have := mul_le_mul_of_nonneg_right hmle (show (0 : ℚ) ≤ 1 - qpow2 (-49) by linarith)
        linarith
    have hv0 : 0 ≤ min l0 l1 := le_min hl00 hl10
    have hvle := pyInt_le hv0
    have hvgt := pyInt_gt hv0
    have hmul : 0 ≤ min (spec_liquidity0 a0 c hi) (spec_liquidity1 a1 c lo) * qpow2 (-49) :=
      mul_nonneg hm0 (le_of_lt hs)
    rw [abs_le]
    constructor <;> linarith

/-- C5 witness: the amended error bound at the concrete call
`calc_liquidity(1, 1, 1, 2, 3)`. -/
theorem c5_witness :
    ∃ v : ℤ, calc_liquidity 1 1 1 2 3 = .ok v ∧
      |(v : ℚ) - min (spec_liquidity0 1 1 3) (spec_liquidity1 1 1 2)|
        ≤ 1 + min (spec_liquidity0 1 1 3) (spec_liquidity1 1 1 2) * qpow2 (-49)
          + qpow2 (-1071) :=
  c5_amended 1 1 1 2 3 (by norm_num) (by norm_num) (by norm_num) (by norm_num)
    (by norm_num) (by norm_num) (by norm_num)

lemma rnd_one : rnd (1 : ℚ) = 1 := by
  apply rnd_eval (show (0 : ℚ) < 1 by norm_num)
    (show qpow2 0 ≤ (1 : ℚ) by rw [qpow2_eq_zpow] ; norm_num)
    (show (1 : ℚ) < qpow2 (0 + 1) by rw [qpow2_eq_zpow] ; norm_num)
    (show max (0 - 52 : ℤ) (-1074) = -52 by norm_num)
  rw [qpow2_eq_zpow]
  norm_num [rhe]

lemma rnd_pow205 : rnd ((2 : ℚ) ^ 205) = 2 ^ 205 := by
  apply rnd_eval (show (0 : ℚ) < 2 ^ 205 by norm_num)
    (show qpow2 205 ≤ (2 : ℚ) ^ 205 by rw [qpow2_eq_zpow] ; norm_num)
    (show (2 : ℚ) ^ 205 < qpow2 (205 + 1) by rw [qpow2_eq_zpow] ; norm_num)
    (show max (205 - 52 : ℤ) (-1074) = 153 by norm_num)
  rw [qpow2_eq_zpow]
  norm_num [rhe]

lemma rnd_pow97_sub_one : rnd ((2 : ℚ) ^ 97 - 1) = 2 ^ 97 := by
  apply rnd_eval (show (0 : ℚ) < 2 ^ 97 - 1 by norm_num)
    (show qpow2 96 ≤ (2 : ℚ) ^ 97 - 1 by rw [qpow2_eq_zpow] ; norm_num)
    (show (2 : ℚ) ^ 97 - 1 < qpow2 (96 + 1) by rw [qpow2_eq_zpow] ; norm_num)
    (show max (96 - 52 : ℤ) (-1074) = 44 by norm_num)
  rw [qpow2_eq_zpow]
  norm_num [rhe]

/-- C5 counterexample: at deposits `amount0 = 2^300`, `amount1 = 2^97 - 1`
with `current = 1`, `lower = 2^96 + 1`, `upper = 2`, the code returns
`2^97` while `⌊min(L0, L1)⌋ = 2^97 - 1`: the float evaluation of
`L1 = 2^97 - 1` rounds up to the double `2^97` before the minimum is
truncated. -/
theorem c5_counterexample :
    calc_liquidity (2 ^ 300) (2 ^ 97 - 1) 1 (Q96 + 1) 2 = .ok (2 ^ 97) ∧
    ⌊min (spec_liquidity0 (2 ^ 300) 1 2) (spec_liquidity1 (2 ^ 97 - 1) 1 (Q96 + 1))⌋
      = 2 ^ 97 - 1 ∧
    (2 ^ 97 : ℤ) ≠ 2 ^ 97 - 1 := by
  have hrn1 : rnd (((2 - 1 : ℤ)) : ℚ) = 1 := by
    rw [show ((2 - 1 : ℤ) : ℚ) = 1 by norm_num]
    exact rnd_one
  have hl0 : calc_liquidity_0 (2 ^ 300) 1 2 = .ok (2 ^ 205) := by
    unfold calc_liquidity_0
    rw [if_neg (by norm_num)]
    rw [calc_liquidity_0_body_eq (2 ^ 300) 1 2 (by rw [hrn1] ; norm_num)]
    rw [show ((2 ^ 300 * (1 * 2) : ℤ) : ℚ) = 2 ^ 301 by norm_num,
      show ((Q96 : ℤ) : ℚ) = (2 : ℚ) ^ 96 by norm_num [Q96],
      show ((2 : ℚ) ^ 301) / 2 ^ 96 = 2 ^ 205 by
        rw [show (301 : ℕ) = 205 + 96 from rfl, pow_add]
        field_simp,
      rnd_pow205, hrn1, div_one, rnd_pow205]
  have hl1 : calc_liquidity_1 (2 ^ 97 - 1) 1 (Q96 + 1) = .ok (2 ^ 97) := by
    unfold calc_liquidity_1
    rw [if_neg (by norm_num [Q96])]
    rw [calc_liquidity_1_body_eq (2 ^ 97 - 1) 1 (Q96 + 1) (by norm_num [Q96])]
    rw [show (((2 ^ 97 - 1) * Q96 : ℤ) : ℚ) = (2 ^ 97 - 1) * 2 ^ 96 by norm_num [Q96],
      show ((Q96 + 1 - 1 : ℤ) : ℚ) = (2 : ℚ) ^ 96 by norm_num [Q96],
      show ((2 : ℚ) ^ 97 - 1) * 2 ^ 96 / 2 ^ 96 = 2 ^ 97 - 1 by field_simp,
      rnd_pow97_sub_one]
  refine ⟨?_, ?_, by norm_num⟩
  · simp only [calc_liquidity, hl0, hl1]
    rw [show min ((2 : ℚ) ^ 205) (2 ^ 97) = 2 ^ 97 from min_eq_right (by norm_num)]
    rw [show pyInt ((2 : ℚ) ^ 97) = 2 ^ 97 by unfold pyInt ; norm_num]
  · unfold spec_liquidity0 spec_liquidity1
    rw [show min (1 : ℤ) 2 = 1 from min_eq_left (by norm_num),
      show max (1 : ℤ) 2 = 2 from max_eq_right (by norm_num),
      show min (1 : ℤ) (Q96 + 1) = 1 from min_eq_left (by norm_num [Q96]),
      show max (1 : ℤ) (Q96 + 1) = Q96 + 1 from max_eq_right (by norm_num [Q96])]
    rw [show ((2 ^ 300 * (1 * 2) : ℤ) : ℚ) = 2 ^ 301 by norm_num,
      show ((2 - 1 : ℤ) : ℚ) = 1 by norm_num,
      show (((2 ^ 97 - 1) * 2 ^ 96 : ℤ) : ℚ) = ((2 : ℚ) ^ 97 - 1) * 2 ^ 96 by norm_num,
      show ((Q96 + 1 - 1 : ℤ) : ℚ) = (2 : ℚ) ^ 96 by norm_num [Q96]]
    rw [show ((2 : ℚ) ^ 301) / 2 ^ 96 / 1 = 2 ^ 205 by
        rw [show (301 : ℕ) = 205 + 96 from rfl, pow_add]
        field_simp,
      show ((2 : ℚ) ^ 97 - 1) * 2 ^ 96 / 2 ^ 96 = 2 ^ 97 - 1 by field_simp]
    rw [show min ((2 : ℚ) ^ 205) (2 ^ 97 - 1) = 2 ^ 97 - 1 from min_eq_right (by norm_num)]
    norm_num

set_option maxHeartbeats 1600000 in
/-- C8: for every tick `t` in `[MIN_TICK, MAX_TICK]`, converting `t` to a
sqrt-price with `tick_to_sqrtP`, deriving the price `(sqrtP / 2^96)^2`, and
applying `price_to_tick` yields `t`, `t - 1`, or `t + 1` (in fact only `t` or
`t - 1` arises: the only drift is the floor in `tick_to_sqrtP`). -/
theorem c8_round_trip (t : ℤ) (hmin : MIN_TICK ≤ t) (hmax : t ≤ MAX_TICK) :
    ∃ u : ℤ, price_to_tick (sqrt_price_to_price (tick_to_sqrtP t)) = .ok u ∧
      (u = t ∨ u = t - 1 ∨ u = t + 1) := by
  have hb0 : (0 : ℝ) < 10001 / 10000 := by norm_num
  have hb1 : (1 : ℝ) < 10001 / 10000 := by norm_num
  obtain ⟨b, hbdef⟩ : ∃ b : ℝ, b = 10001 / 10000 := ⟨_, rfl⟩
  rw [← hbdef] at hb0 hb1
  set s : ℝ := Real.sqrt b with hsdef
  have hs0 : (0 : ℝ) < s := Real.sqrt_pos.mpr hb0
  have hs2 : s ^ 2 = b := Real.sq_sqrt (le_of_lt hb0)
  have hs1 : (1 : ℝ) ≤ s := by nlinarith
  have hbt : b ^ t = (s ^ t) ^ 2 := by
    rw [← hs2, pow_two, mul_zpow, ← pow_two]
  have hsqrt_zpow : Real.sqrt (b ^ t) = s ^ t := by
    rw [hbt, Real.sqrt_sq (le_of_lt (zpow_pos hs0 t))]
  set X : ℝ := s ^ t * 2 ^ 96 with hXdef
  have hXpos : 0 < X := mul_pos (zpow_pos hs0 t) (by norm_num)
  -- lower bound on X over the whole tick range
  have hb_bound : (20004 : ℝ) * b ^ (443636 : ℕ) ≤ 2 ^ 96 := by
    rw [hbdef]
    have h : ((10001 : ℝ) / 10000) ^ (443636 : ℕ) ≤ 2 * 10 ^ 19 := by
      have h0 : ((((10001 : ℚ) / 10000) ^ (443636 : ℕ) : ℚ) : ℝ) ≤ ((2 * 10 ^ 19 : ℚ) : ℝ) :=
        Rat.cast_le.mpr bq_pow_443636_le
      push_cast at h0
      exact h0
    calc (20004 : ℝ) * ((10001 : ℝ) / 10000) ^ (443636 : ℕ)
        ≤ 20004 * (2 * 10 ^ 19) := mul_le_mul_of_nonneg_left h (by norm_num)
      _ ≤ 2 ^ 96 := by norm_num
  have hspow : s ^ (887272 : ℕ) = b ^ (443636 : ℕ) := by
    rw [show (887272 : ℕ) = 2 * 443636 from rfl, pow_mul, hs2]
  have hX20004 : (20004 : ℝ) ≤ X := by
    have hmono : s ^ (-887272 : ℤ) ≤ s ^ t := by
      apply zpow_le_zpow_right₀ hs1
      rw [MIN_TICK] at hmin
      exact hmin
    have hneg : s ^ (-887272 : ℤ) = (b ^ (443636 : ℕ))⁻¹ := by
      rw [zpow_neg, ← hspow, show ((887272 : ℤ)) = ((887272 : ℕ) : ℤ) by norm_num,
        zpow_natCast]
    have hbpos : (0 : ℝ) < b ^ (443636 : ℕ) := by positivity
    have hinvge : (20004 : ℝ) ≤ 2 ^ 96 * (b ^ (443636 : ℕ))⁻¹ := by
      rw [← div_eq_mul_inv, le_div_iff hbpos]
      exact hb_bound
    calc (20004 : ℝ) ≤ 2 ^ 96 * (b ^ (443636 : ℕ))⁻¹ := hinvge
      _ = s ^ (-887272 : ℤ) * 2 ^ 96 := by rw [hneg] ; ring
      _ ≤ s ^ t * 2 ^ 96 := by nlinarith [hmono]
  -- the floor of X
  have hmdef : tick_to_sqrtP t = ⌊X⌋ := by
    unfold tick_to_sqrtP
    rw [← hbdef, hsqrt_zpow, ← hXdef]
  set m : ℤ := ⌊X⌋ with hmdef2
  have hm20004 : (20004 : ℤ) ≤ m := Int.le_floor.mpr (by exact_mod_cast hX20004)
  have hmX : (m : ℝ) ≤ X := Int.floor_le X
  have hXm : X < (m : ℝ) + 1 := Int.lt_floor_add_one X
  have hmpos : (0 : ℝ) < (m : ℝ) := by exact_mod_cast (show (0 : ℤ) < m by omega)
  -- price bounds: b ^ (t - 1) < (m / 2^96)^2 ≤ b ^ t
  have hX2 : X ^ 2 = b ^ t * 2 ^ 192 := by
    rw [hXdef, mul_pow, hbt]
    norm_num
  have hprice_le : (m : ℝ) ^ 2 / 2 ^ 192 ≤ b ^ t := by
    have h1 : (m : ℝ) ^ 2 ≤ X ^ 2 := by nlinarith
    rw [hX2] at h1
    rw [div_le_iff (by norm_num : (0 : ℝ) < 2 ^ 192)]
    linarith
  have hprice_gt : b ^ (t - 1) < (m : ℝ) ^ 2 / 2 ^ 192 := by
    have hquad : X ^ 2 ≤ (X - 1) ^ 2 * b := by
      rw [hbdef]
      nlinarith [sq_nonneg (X - 20004), hX20004]
    have h1 : (X - 1) ^ 2 < (m : ℝ) ^ 2 := by nlinarith
    have h2 : X ^ 2 < (m : ℝ) ^ 2 * b := by nlinarith
    have h3 : b ^ (t - 1) * 2 ^ 192 * b = b ^ t * 2 ^ 192 := by
      rw [show t = t - 1 + 1 by ring, zpow_add₀ (ne_of_gt hb0)]
      ring_nf
      rw [zpow_one]
    rw [lt_div_iff (by norm_num : (0 : ℝ) < 2 ^ 192)]
    rw [hX2] at h2
    nlinarith [h2, h3, hb0]
  -- run price_to_tick on the derived price
  have hpq : ((sqrt_price_to_price m : ℚ) : ℝ) = (m : ℝ) ^ 2 / 2 ^ 192 := by
    unfold sqrt_price_to_price
    push_cast
    ring
  have hpq_pos : (0 : ℚ) < sqrt_price_to_price m := by
    have : (0 : ℝ) < ((sqrt_price_to_price m : ℚ) : ℝ) := by
      rw [hpq] ; positivity
    exact_mod_cast this
  rw [hmdef]
  unfold price_to_tick
  rw [if_neg (not_le.mpr hpq_pos)]
  refine ⟨_, rfl, ?_⟩
  rw [← hbdef]
  have hlogb : (0 : ℝ) < Real.log b := Real.log_pos hb1
  have hlog_le : Real.log ((sqrt_price_to_price m : ℚ) : ℝ) ≤ (t : ℝ) * Real.log b := by
    rw [← Real.log_zpow]
    apply (Real.log_le_log_iff (by exact_mod_cast hpq_pos) (zpow_pos hb0 t)).mpr
    rw [hpq]
    exact hprice_le
  have hlog_gt : ((t : ℝ) - 1) * Real.log b < Real.log ((sqrt_price_to_price m : ℚ) : ℝ) := by
    have : Real.log (b ^ (t - 1)) < Real.log ((sqrt_price_to_price m : ℚ) : ℝ) := by
      apply Real.log_lt_log (zpow_pos hb0 (t - 1))
      rw [hpq]
      exact hprice_gt
    rw [Real.log_zpow] at this
    push_cast at this
    linarith
  have hub : ⌊Real.log ((sqrt_price_to_price m : ℚ) : ℝ) / Real.log b⌋ ≤ t := by
    have hr : Real.log ((sqrt_price_to_price m : ℚ) : ℝ) / Real.log b ≤ (t : ℝ) := by
      rw [div_le_iff hlogb]
      linarith
    calc ⌊Real.log ((sqrt_price_to_price m : ℚ) : ℝ) / Real.log b⌋
        ≤ ⌊(t : ℝ)⌋ := Int.floor_le_floor hr
      _ = t := Int.floor_intCast t
  have hlb : t - 1 ≤ ⌊Real.log ((sqrt_price_to_price m : ℚ) : ℝ) / Real.log b⌋ := by
    apply Int.le_floor.mpr
    rw [le_div_iff hlogb]
    push_cast
    linarith
  omega

/-- C8 witness: the round-trip bound instantiated at the concrete tick `0`. -/
theorem c8_round_trip_witness :
    ∃ u : ℤ, price_to_tick (sqrt_price_to_price (tick_to_sqrtP 0)) = .ok u ∧
      (u = 0 ∨ u = 0 - 1 ∨ u = 0 + 1) :=
  c8_round_trip 0 (by norm_num [MIN_TICK]) (by norm_num [MAX_TICK])
